import Mathlib

/-!
Verification of the cellular-automata engine (CA-project).

This file gives a shallow embedding of the core code of the engine:

* the pure geometry helpers of Utils/CA_utils.cpp
  (get_periodic_index, diagonal predicates, flat-to-offset neighbor
  index functions, neighborhood cardinality),
* the neighborhood generators, the rule application and the step
  function of the CellularAutomata class (Include/CAdatatypes.h and
  the int specialization in Source/Datatypes/cellularautomata.cpp),
* the configuration/setup operations of the engine facade.

C++ `int` values are embedded as `Int`; C++ `/` and `%` on int are
truncated division, embedded as `Int.tdiv` and `Int.tmod`.  Grids are
embedded as (nested) `List Int`; reading a grid out of bounds is
undefined behavior in the source and is embedded as a default value 0
(theorems below never depend on that default).  The iteration order of
`std::unordered_map` is unspecified; where it matters (Majority rule)
the embedding is parameterized by an `order` list standing for that
iteration order.
-/

namespace CAEnums

inductive Neighborhood where
  | VonNeumann
  | Moore
deriving DecidableEq, BEq, Repr

inductive Boundary where
  | Periodic
  | Walled
  | CutOff
deriving DecidableEq, BEq, Repr

inductive Rule where
  | Majority
  | Parity
  | Custom
deriving DecidableEq, BEq, Repr

/-- Error code CellsAlreadyInitialized from the CAEnums::ErrorCode enum. -/
def CellsAlreadyInitialized : Int := -1

/-- Error code CellsAreNull from the CAEnums::ErrorCode enum. -/
def CellsAreNull : Int := -2

/-- Error code CellsMalloc from the CAEnums::ErrorCode enum. -/
def CellsMalloc : Int := -3

/-- Error code InvalidCellState from the CAEnums::ErrorCode enum. -/
def InvalidCellState : Int := -4

/-- Error code InvalidCellStateCondition from the CAEnums::ErrorCode enum. -/
def InvalidCellStateCondition : Int := -5

/-- Error code InvalidRadius from the CAEnums::ErrorCode enum. -/
def InvalidRadius : Int := -6

/-- Error code InvalidNumStates from the CAEnums::ErrorCode enum. -/
def InvalidNumStates : Int := -7

/-- Error code NeighborhoodCellsMalloc from the CAEnums::ErrorCode enum. -/
def NeighborhoodCellsMalloc : Int := -8

/-- Error code CustomRuleIsNull from the CAEnums::ErrorCode enum. -/
def CustomRuleIsNull : Int := -9

/-- Error code RadiusLargerThanDimensions from the CAEnums::ErrorCode enum. -/
def RadiusLargerThanDimensions : Int := -10

end CAEnums

/-- Embedding of get_periodic_index in Utils/CA_utils.cpp:
`return (i + di + axis_dim) % axis_dim;` with C++ truncated `%`. -/
def get_periodic_index (i di axis_dim : Int) : Int :=
  (i + di + axis_dim).tmod axis_dim

/-- Embedding of is_diagonal_neighboring_cell_2d: `return (i != 0 && j != 0);`. -/
def is_diagonal_neighboring_cell_2d (i j : Int) : Bool :=
  i != 0 && j != 0

/-- Embedding of is_diagonal_neighboring_cell_3d: when `i == 0` the result is
`k != 0 && j != 0`, otherwise `k != 0 || j != 0`. -/
def is_diagonal_neighboring_cell_3d (i j k : Int) : Bool :=
  if i == 0 then k != 0 && j != 0 else k != 0 || j != 0

/-- Embedding of CellularAutomata::get_neighborhood_size:
`(2*rank*radius)+1` for VonNeumann, `pow(2*radius+1, rank)` for Moore. -/
def get_neighborhood_size (rank radius : Int) (nt : CAEnums.Neighborhood) : Int :=
  if nt = CAEnums.Neighborhood.VonNeumann then 2 * rank * radius + 1
  else (2 * radius + 1) ^ rank.toNat

/-- Embedding of get_periodic_moore_neighbor_index in Utils/CA_utils.cpp.
The C++ function writes the offset components into an out array indexed by
rank; the embedding returns them as a list. C++ `/` and `%` are `tdiv`/`tmod`. -/
def get_periodic_moore_neighbor_index (rank radius q : Int) : List Int :=
  let factor := 2 * radius + 1
  if rank = 1 then
    [q - radius]
  else if rank = 2 then
    [q.tdiv factor - radius, q.tmod factor - radius]
  else if rank = 3 then
    let f2 := factor * factor
    let adjusted := q.tmod f2
    [q.tdiv f2 - radius, adjusted.tdiv factor - radius, adjusted.tmod factor - radius]
  else []

/-- Embedding of get_periodic_von_neumann_neighbor_index in Utils/CA_utils.cpp,
with the same branch structure as the source. -/
def get_periodic_von_neumann_neighbor_index (rank radius q : Int) : List Int :=
  let len := 2 * rank * radius + 1
  let middle_cell_index := len.tdiv 2
  if rank = 1 then
    [q - radius]
  else if rank = 2 then
    if q < radius then [-radius + q, 0]
    else if len - q ≤ radius then [q - len + 1 + radius, 0]
    else [0, q - middle_cell_index]
  else if rank = 3 then
    if q < radius then [-radius + q, 0, 0]
    else if len - q ≤ radius then [q - len + 1 + radius, 0, 0]
    else
      let adjusted := q - radius
      if adjusted < radius then [0, -radius + adjusted, 0]
      else if len - q - radius ≤ radius then [0, q - len + 1 + 2 * radius, 0]
      else [0, 0, q - middle_cell_index]
  else []

/-- Offsets visited by the C++ loop `for (int di = -radius; di <= radius; di++)`,
in loop order. For radius ≤ 0 the C++ loop still visits `di = 0` when radius = 0
and nothing when radius < 0, which `(2*radius+1).toNat` reproduces. -/
def offsets_range (radius : Int) : List Int :=
  (List.range (2 * radius + 1).toNat).map (fun t : Nat => (t : Int) - radius)

/-- Reading `vector[i]` for an Int index; out-of-bounds reads (undefined
behavior in C++) give the default 0. -/
def cellGet (vector : List Int) (i : Int) : Int :=
  if i < 0 then 0 else vector.getD i.toNat 0

/-- Reading the row `matrix[i]`. -/
def rowGet (matrix : List (List Int)) (i : Int) : List Int :=
  if i < 0 then [] else matrix.getD i.toNat []

/-- Reading `matrix[i][j]`. -/
def matGet (matrix : List (List Int)) (i j : Int) : Int :=
  cellGet (rowGet matrix i) j

/-- Reading the slice `tensor[i]`. -/
def sliceGet (tensor : List (List (List Int))) (i : Int) : List (List Int) :=
  if i < 0 then [] else tensor.getD i.toNat []

/-- Reading `tensor[i][j][k]`. -/
def tenGet (tensor : List (List (List Int))) (i j k : Int) : Int :=
  matGet (sliceGet tensor i) j k

/-- Embedding of CellularAutomata::generate_periodic_neighborhood_1d:
for each `di` in `[-r, r]` emit `vector[get_periodic_index(i, di, axis1_dim)]`. -/
def generate_periodic_neighborhood_1d (boundary_radius axis1_dim : Int)
    (vector : List Int) (i : Int) : List Int :=
  (offsets_range boundary_radius).map
    (fun di => cellGet vector (get_periodic_index i di axis1_dim))

/-- Embedding of CellularAutomata::generate_cutoff_neighborhood_1d.  The
source drops a neighbor when `neighbor_i <= 0 || neighbor_i >= axis1_dim`
(note: `<= 0`, so absolute coordinate 0 is dropped) and then appends
`vector[di]` (note: the source indexes with the offset `di`, not with
`neighbor_i`). -/
def generate_cutoff_neighborhood_1d (boundary_radius axis1_dim : Int)
    (vector : List Int) (i : Int) : List Int :=
  (offsets_range boundary_radius).filterMap (fun di =>
    let neighbor_i := di + i
    if neighbor_i ≤ 0 ∨ axis1_dim ≤ neighbor_i then none
    else some (cellGet vector di))

/-- Comparison definition following the words of the spec for the CutOff boundary:
enumerate the same offsets as Periodic and keep exactly the neighbors whose
absolute coordinate `i + di` lies inside `[0, axis1_dim)`, reading the cell at
that absolute coordinate. -/
def spec_cutoff_neighborhood_1d (boundary_radius axis1_dim : Int)
    (vector : List Int) (i : Int) : List Int :=
  (offsets_range boundary_radius).filterMap (fun di =>
    let neighbor_i := di + i
    if neighbor_i < 0 ∨ axis1_dim ≤ neighbor_i then none
    else some (cellGet vector neighbor_i))

/-- Embedding of less_than_votes in Utils/CA_utils.cpp: compares the vote
counts (second components) of two counter entries. -/
def less_than_votes (a b : Int × Int) : Bool :=
  a.2 < b.2

/-- Embedding of std::max_element over the vote counter with comparator
less_than_votes: scan left to right, replacing the current best entry exactly
when the comparator says it is strictly smaller than the candidate, so the
leftmost entry with the maximal vote count is returned.  Calling it on an
empty counter dereferences the end iterator in C++ (undefined behavior);
the embedding returns a junk entry, and no theorem below depends on it. -/
def max_element (l : List (Int × Int)) : Int × Int :=
  match l with
  | [] => (-1, -1)
  | x :: xs => xs.foldl (fun largest y => if less_than_votes largest y then y else largest) x

/-- Embedding of initialize_majority_rule_counter: the unordered_map after
inserting the pairs (j, 0) for j = 0 .. num_states-1 is an association list
whose element sequence `order` stands for the (unspecified) iteration order
of the hash map; `order` is constrained in theorems to be a permutation of
0 .. num_states-1. -/
def initialize_majority_rule_counter (order : List Int) : List (Int × Int) :=
  order.map (fun s => (s, 0))

/-- One neighbor vote: `find` locates the counter entry with the matching key
(if the state was registered) and increments its count; states without an
entry are ignored. -/
def tally_vote (counter : List (Int × Int)) (s : Int) : List (Int × Int) :=
  counter.map (fun kv => if kv.1 = s then (kv.1, kv.2 + 1) else kv)

/-- The voting loop of the Majority case of set_new_cell_state. -/
def count_votes (counter : List (Int × Int)) (neighborhood_cells : List Int) :
    List (Int × Int) :=
  neighborhood_cells.foldl tally_vote counter

/-- Embedding of the int specialization of set_new_cell_state as invoked from
the no-argument step() (null custom rule): returns (error code, new state).
The Custom case with a null rule sets the new state to -1 and fails with
CustomRuleIsNull; Parity stores the truncated sum modulo num_states; Majority
returns the key of the max_element of the vote counter. -/
def set_new_cell_state (order : List Int) (rule_type : CAEnums.Rule)
    (num_states : Int) (neighborhood_cells : List Int) : Int × Int :=
  match rule_type with
  | CAEnums.Rule.Custom => (CAEnums.CustomRuleIsNull, -1)
  | CAEnums.Rule.Parity =>
      (0, (neighborhood_cells.foldl (fun sum s => sum + s) 0).tmod num_states)
  | CAEnums.Rule.Majority =>
      (0, (max_element (count_votes (initialize_majority_rule_counter order)
            neighborhood_cells)).1)

/-- Configuration fields of BaseCellularAutomata that the step path reads. -/
structure CAConfig where
  boundary_type : CAEnums.Boundary
  boundary_radius : Int
  neighborhood_type : CAEnums.Neighborhood
  num_states : Int
  rule_type : CAEnums.Rule
deriving DecidableEq, Repr

/-- Embedding of get_state_from_neighborhood_1d: Walled freezes the two edge
cells, otherwise (and for CutOff) the cutoff neighborhood feeds the rule;
Periodic uses the periodic neighborhood.  Returns (error code, new state). -/
def get_state_from_neighborhood_1d (cfg : CAConfig) (order : List Int)
    (axis1_dim : Int) (vector : List Int) (i : Int) : Int × Int :=
  match cfg.boundary_type with
  | CAEnums.Boundary.Periodic =>
      set_new_cell_state order cfg.rule_type cfg.num_states
        (generate_periodic_neighborhood_1d cfg.boundary_radius axis1_dim vector i)
  | CAEnums.Boundary.Walled =>
      if i = 0 ∨ i = axis1_dim - 1 then (0, cellGet vector i)
      else
        set_new_cell_state order cfg.rule_type cfg.num_states
          (generate_cutoff_neighborhood_1d cfg.boundary_radius axis1_dim vector i)
  | CAEnums.Boundary.CutOff =>
      set_new_cell_state order cfg.rule_type cfg.num_states
        (generate_cutoff_neighborhood_1d cfg.boundary_radius axis1_dim vector i)

/-- The two buffers and step counter of a rank-1 CellularAutomata instance. -/
structure CA1 where
  vector : List Int
  next_vector : List Int
  steps_taken : Int
deriving DecidableEq, Repr

/-- One iteration of the cell loop in the 1D branch of step: acc carries
(error code, next buffer).  A write happens only when the computed value
differs from the empty cell state 0; after an error the source returns, so
later iterations leave acc untouched. -/
def step_cell_write_1d (cfg : CAConfig) (order : List Int) (axis1_dim : Int)
    (vector : List Int) (acc : Int × List Int) (i : Nat) : Int × List Int :=
  if acc.1 < 0 then acc
  else
    let r := get_state_from_neighborhood_1d cfg order axis1_dim vector (i : Int)
    if r.1 < 0 then (r.1, acc.2)
    else if r.2 ≠ 0 then (r.1, acc.2.set i r.2)
    else (r.1, acc.2)

/-- Embedding of the 1D branch of the int specialization of step(): iterate
the cell loop over the current buffer writing into the next buffer (no reset
of the next buffer happens before the loop), then swap the two buffers and
advance steps_taken; on error return without swapping. -/
def step_1d (cfg : CAConfig) (order : List Int) (axis1_dim : Int) (s : CA1) :
    Int × CA1 :=
  let res := (List.range axis1_dim.toNat).foldl
    (step_cell_write_1d cfg order axis1_dim s.vector) (0, s.next_vector)
  if res.1 < 0 then (res.1, { s with next_vector := res.2 })
  else
    (res.1,
      { vector := res.2, next_vector := s.vector, steps_taken := s.steps_taken + 1 })

/-- Configuration of scenario S1: 1D, Periodic, radius 1, 2 states, Parity. -/
def demo_cfg_parity : CAConfig :=
  { boundary_type := CAEnums.Boundary.Periodic, boundary_radius := 1,
    neighborhood_type := CAEnums.Neighborhood.Moore, num_states := 2,
    rule_type := CAEnums.Rule.Parity }

/-- Engine facade state: configuration fields plus the allocation state of
the three grids (null/non-null pointers become Booleans; allocation itself is
assumed to succeed). -/
structure EngineState where
  boundary_type : CAEnums.Boundary
  boundary_radius : Int
  neighborhood_type : CAEnums.Neighborhood
  num_states : Int
  rule_type : CAEnums.Rule
  axis1_dim : Int
  axis2_dim : Int
  axis3_dim : Int
  hasVector : Bool
  hasMatrix : Bool
  hasTensor : Bool
deriving DecidableEq, Repr

/-- Default-constructed engine: the BaseCellularAutomata constructor plus the
null grid pointers set by the CellularAutomata constructor. -/
def default_engine : EngineState :=
  { boundary_type := CAEnums.Boundary.Periodic, boundary_radius := 1,
    neighborhood_type := CAEnums.Neighborhood.Moore, num_states := 2,
    rule_type := CAEnums.Rule.Majority,
    axis1_dim := 0, axis2_dim := 0, axis3_dim := 0,
    hasVector := false, hasMatrix := false, hasTensor := false }

/-- Embedding of setup_boundary.  Radius ≤ 0 fails with InvalidRadius; with a
vector grid axis 1 is checked, with a matrix grid axes 1 and 2 are checked,
and with a tensor grid the source checks only axes 2 and 3 (axis 1 is not
checked).  On success the boundary type and radius are installed. -/
def setup_boundary (s : EngineState) (bound_type : CAEnums.Boundary)
    (radius : Int) : Int × EngineState :=
  if radius ≤ 0 then (CAEnums.InvalidRadius, s)
  else if s.hasVector then
    if s.axis1_dim.tdiv 2 < radius then (CAEnums.RadiusLargerThanDimensions, s)
    else (0, { s with boundary_type := bound_type, boundary_radius := radius })
  else if s.hasMatrix then
    if s.axis1_dim.tdiv 2 < radius ∨ s.axis2_dim.tdiv 2 < radius then
      (CAEnums.RadiusLargerThanDimensions, s)
    else (0, { s with boundary_type := bound_type, boundary_radius := radius })
  else if s.hasTensor then
    if s.axis2_dim.tdiv 2 < radius ∨ s.axis3_dim.tdiv 2 < radius then
      (CAEnums.RadiusLargerThanDimensions, s)
    else (0, { s with boundary_type := bound_type, boundary_radius := radius })
  else (0, { s with boundary_type := bound_type, boundary_radius := radius })

/-- Embedding of setup_dimensions_1d: only a non-null vector pointer guards
re-initialization; on success the vector grid is allocated and axis1_dim is
stored (buffer contents are tracked separately by the step embedding). -/
def setup_dimensions_1d (s : EngineState) (axis1_dim : Int) : Int × EngineState :=
  if s.hasVector then (CAEnums.CellsAlreadyInitialized, s)
  else (0, { s with axis1_dim := axis1_dim, hasVector := true })

/-- Embedding of setup_dimensions_2d: only a non-null matrix pointer guards
re-initialization. -/
def setup_dimensions_2d (s : EngineState) (axis1_dim axis2_dim : Int) :
    Int × EngineState :=
  if s.hasMatrix then (CAEnums.CellsAlreadyInitialized, s)
  else (0, { s with axis1_dim := axis1_dim, axis2_dim := axis2_dim, hasMatrix := true })

/-- Embedding of setup_dimensions_3d: only a non-null tensor pointer guards
re-initialization. -/
def setup_dimensions_3d (s : EngineState) (axis1_dim axis2_dim axis3_dim : Int) :
    Int × EngineState :=
  if s.hasTensor then (CAEnums.CellsAlreadyInitialized, s)
  else
    (0, { s with
          axis1_dim := axis1_dim, axis2_dim := axis2_dim,
          axis3_dim := axis3_dim, hasTensor := true })

/-- Engine with a configured 3D grid of dimensions 2 x 10 x 10. -/
def demo_tensor_engine : EngineState :=
  { default_engine with
    hasTensor := true,
    axis1_dim := 2, axis2_dim := 10, axis3_dim := 10 }

/-- Embedding of CellularAutomata::generate_periodic_neighborhood_3d: nested
loops over the offsets, VonNeumann skipping diagonal offsets, each neighbor
read at the periodically wrapped coordinates. -/
def generate_periodic_neighborhood_3d (nt : CAEnums.Neighborhood)
    (boundary_radius axis1_dim axis2_dim axis3_dim : Int)
    (tensor : List (List (List Int))) (i j k : Int) : List Int :=
  (offsets_range boundary_radius).flatMap (fun di =>
    (offsets_range boundary_radius).flatMap (fun dj =>
      (offsets_range boundary_radius).filterMap (fun dk =>
        if nt == CAEnums.Neighborhood.VonNeumann &&
            is_diagonal_neighboring_cell_3d di dj dk then none
        else some (tenGet tensor (get_periodic_index i di axis1_dim)
          (get_periodic_index j dj axis2_dim)
          (get_periodic_index k dk axis3_dim)))))

/-- Embedding of CellularAutomata::generate_cutoff_neighborhood_3d:
VonNeumann first skips diagonal offsets, then every neighbor with
`neighbor <= 0 || neighbor >= dim` on some axis is skipped (as in the
source, absolute coordinate 0 is dropped). -/
def generate_cutoff_neighborhood_3d (nt : CAEnums.Neighborhood)
    (boundary_radius axis1_dim axis2_dim axis3_dim : Int)
    (tensor : List (List (List Int))) (i j k : Int) : List Int :=
  (offsets_range boundary_radius).flatMap (fun di =>
    (offsets_range boundary_radius).flatMap (fun dj =>
      (offsets_range boundary_radius).filterMap (fun dk =>
        let neighbor_i := di + i
        let neighbor_j := dj + j
        let neighbor_k := dk + k
        if nt == CAEnums.Neighborhood.VonNeumann &&
            is_diagonal_neighboring_cell_3d di dj dk then none
        else if neighbor_i ≤ 0 ∨ axis1_dim ≤ neighbor_i ∨ neighbor_j ≤ 0 ∨
            axis2_dim ≤ neighbor_j ∨ neighbor_k ≤ 0 ∨ axis3_dim ≤ neighbor_k then none
        else some (tenGet tensor neighbor_i neighbor_j neighbor_k))))

/-- Embedding of get_state_from_neighborhood_3d.  The Walled boundary check
of the source reads `(i == 0 || i == axis1_dim - 1) || (j == 0 ||
j == axis2_dim - 1) || (k == 0 || j == axis3_dim - 1)`: the last comparison
tests j, not k, against axis3_dim - 1, and the embedding keeps that. -/
def get_state_from_neighborhood_3d (cfg : CAConfig) (order : List Int)
    (axis1_dim axis2_dim axis3_dim : Int) (tensor : List (List (List Int)))
    (i j k : Int) : Int × Int :=
  match cfg.boundary_type with
  | CAEnums.Boundary.Periodic =>
      set_new_cell_state order cfg.rule_type cfg.num_states
        (generate_periodic_neighborhood_3d cfg.neighborhood_type cfg.boundary_radius
          axis1_dim axis2_dim axis3_dim tensor i j k)
  | CAEnums.Boundary.Walled =>
      if (i = 0 ∨ i = axis1_dim - 1) ∨ (j = 0 ∨ j = axis2_dim - 1) ∨
          (k = 0 ∨ j = axis3_dim - 1) then
        (0, tenGet tensor i j k)
      else
        set_new_cell_state order cfg.rule_type cfg.num_states
          (generate_cutoff_neighborhood_3d cfg.neighborhood_type cfg.boundary_radius
            axis1_dim axis2_dim axis3_dim tensor i j k)
  | CAEnums.Boundary.CutOff =>
      set_new_cell_state order cfg.rule_type cfg.num_states
        (generate_cutoff_neighborhood_3d cfg.neighborhood_type cfg.boundary_radius
          axis1_dim axis2_dim axis3_dim tensor i j k)

/-- The two buffers and step counter of a rank-3 CellularAutomata instance. -/
structure CA3 where
  tensor : List (List (List Int))
  next_tensor : List (List (List Int))
  steps_taken : Int
deriving DecidableEq, Repr

/-- Writing `next_tensor[i][j][k] = v`. -/
def tensor_set (t : List (List (List Int))) (i j k : Nat) (v : Int) :
    List (List (List Int)) :=
  t.set i ((t.getD i []).set j (((t.getD i []).getD j []).set k v))

/-- One iteration of the cell loop in the 3D branch of step. -/
def step_cell_write_3d (cfg : CAConfig) (order : List Int)
    (axis1_dim axis2_dim axis3_dim : Int) (tensor : List (List (List Int)))
    (acc : Int × List (List (List Int))) (c : Nat × Nat × Nat) :
    Int × List (List (List Int)) :=
  if acc.1 < 0 then acc
  else
    let r := get_state_from_neighborhood_3d cfg order axis1_dim axis2_dim axis3_dim
      tensor (c.1 : Int) (c.2.1 : Int) (c.2.2 : Int)
    if r.1 < 0 then (r.1, acc.2)
    else if r.2 ≠ 0 then (r.1, tensor_set acc.2 c.1 c.2.1 c.2.2 r.2)
    else (r.1, acc.2)

/-- Lexicographic enumeration of all cell coordinates by the triple loop of
the 3D branch of step. -/
def cell_indices_3d (axis1_dim axis2_dim axis3_dim : Int) :
    List (Nat × Nat × Nat) :=
  (List.range axis1_dim.toNat).flatMap (fun i =>
    (List.range axis2_dim.toNat).flatMap (fun j =>
      (List.range axis3_dim.toNat).map (fun k => (i, j, k))))

/-- Embedding of the 3D branch of the int specialization of step(): iterate
the cell loop in lexicographic order writing non-empty new values into the
next buffer (no reset happens before the loop), then swap the two buffers. -/
def step_3d (cfg : CAConfig) (order : List Int)
    (axis1_dim axis2_dim axis3_dim : Int) (s : CA3) : Int × CA3 :=
  let res := (cell_indices_3d axis1_dim axis2_dim axis3_dim).foldl
    (step_cell_write_3d cfg order axis1_dim axis2_dim axis3_dim s.tensor)
    (0, s.next_tensor)
  if res.1 < 0 then (res.1, { s with next_tensor := res.2 })
  else
    (res.1,
      { tensor := res.2, next_tensor := s.tensor, steps_taken := s.steps_taken + 1 })

/-- Configuration of the Walled 3D scenario: radius 1, Moore, 3 states,
Parity. -/
def demo_cfg_walled : CAConfig :=
  { boundary_type := CAEnums.Boundary.Walled, boundary_radius := 1,
    neighborhood_type := CAEnums.Neighborhood.Moore, num_states := 3,
    rule_type := CAEnums.Rule.Parity }

/-- The all-ones 3 x 3 x 3 tensor. -/
def ones_3x3x3 : List (List (List Int)) :=
  List.replicate 3 (List.replicate 3 (List.replicate 3 1))

/-- Offsets enumerated by generate_periodic_neighborhood_1d, in emission
order. -/
def periodic_offsets_1d (radius : Int) : List (List Int) :=
  (offsets_range radius).map (fun di => [di])

/-- Offsets enumerated by the Moore branch of the 2D periodic generator, in
emission order. -/
def periodic_moore_offsets_2d (radius : Int) : List (List Int) :=
  (offsets_range radius).flatMap (fun di =>
    (offsets_range radius).map (fun dj => [di, dj]))

/-- Offsets enumerated by the VonNeumann branch of the 2D periodic generator
(diagonal offsets skipped), in emission order. -/
def periodic_vn_offsets_2d (radius : Int) : List (List Int) :=
  (offsets_range radius).flatMap (fun di =>
    (offsets_range radius).filterMap (fun dj =>
      if is_diagonal_neighboring_cell_2d di dj then none else some [di, dj]))

/-- Offsets enumerated by the Moore branch of the 3D periodic generator, in
emission order. -/
def periodic_moore_offsets_3d (radius : Int) : List (List Int) :=
  (offsets_range radius).flatMap (fun di =>
    (offsets_range radius).flatMap (fun dj =>
      (offsets_range radius).map (fun dk => [di, dj, dk])))

/-- Offsets enumerated by the VonNeumann branch of the 3D periodic generator
(diagonal offsets skipped), in emission order. -/
def periodic_vn_offsets_3d (radius : Int) : List (List Int) :=
  (offsets_range radius).flatMap (fun di =>
    (offsets_range radius).flatMap (fun dj =>
      (offsets_range radius).filterMap (fun dk =>
        if is_diagonal_neighboring_cell_3d di dj dk then none
        else some [di, dj, dk])))

/-- Embedding of CellularAutomata::generate_periodic_neighborhood_2d. -/
def generate_periodic_neighborhood_2d (nt : CAEnums.Neighborhood)
    (boundary_radius axis1_dim axis2_dim : Int)
    (matrix : List (List Int)) (i j : Int) : List Int :=
  (offsets_range boundary_radius).flatMap (fun di =>
    (offsets_range boundary_radius).filterMap (fun dj =>
      if nt == CAEnums.Neighborhood.VonNeumann &&
          is_diagonal_neighboring_cell_2d di dj then none
      else some (matGet matrix (get_periodic_index i di axis1_dim)
        (get_periodic_index j dj axis2_dim))))

/-- For a positive modulus, the C-style normalization `(x tmod D + D) tmod D`
agrees with the mathematical (Euclidean) remainder. -/
theorem tmod_norm_eq_emod (x D : Int) (hD : 0 < D) :
    (x.tmod D + D).tmod D = x % D := by
  have hb : (0 : Int) ≤ D := le_of_lt hD
  have hlow : -D < x.tmod D := by
    rcases le_or_lt 0 x with hx | hx
    · have h0 : 0 ≤ x.tmod D := Int.tmod_nonneg D hx
      omega
    · have h1 : (-x).tmod D = -(x.tmod D) := by
        simp [Int.tmod_def, Int.neg_tdiv]
        ring
      have h2 : (-x).tmod D < D := Int.tmod_lt_of_pos (-x) hD
      omega
  have harg : 0 ≤ x.tmod D + D := by omega
  rw [Int.tmod_eq_emod harg hb]
  have hx : x.tmod D = x - D * x.tdiv D := Int.tmod_def x D
  have : x.tmod D + D = x + D * (1 - x.tdiv D) := by rw [hx]; ring
  rw [this, Int.add_mul_emod_self_left]

/-- C6 counterexample: the round trip stated in the claim fails for an offset of magnitude
larger than the axis length.  With D = 5, c = 1, di = 9 the code computes
`wrap(wrap(1, 9, 5), -9, 5) = wrap(0, -9, 5) = (-4) tmod 5 = -4`, not 1, and
the intermediate result -4 is not in [0, 5). -/
theorem claim_C6_cex :
    get_periodic_index (get_periodic_index 1 9 5) (-9) 5 = -4 ∧
    get_periodic_index (get_periodic_index 1 9 5) (-9) 5 ≠ 1 := by
  constructor <;> decide

/-- C6 (amended): for every axis length D ≥ 1, every index c in [0, D) and
every offset di with -D ≤ di ≤ D, get_periodic_index computes the normalized
remainder `((c + di) tmod D + D) tmod D`, its result lies in [0, D), and the
round trip `wrap(wrap(c, di, D), -di, D) = c` holds.  (The unrestricted claim
is false: see the counterexample with di = 9, D = 5.) -/
theorem claim_C6 (D c di : Int) (hD : 0 < D) (hc0 : 0 ≤ c) (hcD : c < D)
    (hlo : -D ≤ di) (hhi : di ≤ D) :
    get_periodic_index c di D = ((c + di).tmod D + D).tmod D ∧
    0 ≤ get_periodic_index c di D ∧
    get_periodic_index c di D < D ∧
    get_periodic_index (get_periodic_index c di D) (-di) D = c := by
  have hb : (0 : Int) ≤ D := le_of_lt hD
  have hDne : D ≠ 0 := by omega
  have harg : 0 ≤ c + di + D := by omega
  have hval : get_periodic_index c di D = (c + di) % D := by
    unfold get_periodic_index
    rw [Int.tmod_eq_emod harg hb]
    have : c + di + D = c + di + D * 1 := by ring
    rw [this, Int.add_mul_emod_self_left]
  refine ⟨?_, ?_, ?_, ?_⟩
  · rw [hval, tmod_norm_eq_emod _ _ hD]
  · rw [hval]; exact Int.emod_nonneg _ hDne
  · rw [hval]; exact Int.emod_lt_of_pos _ hD
  · rw [hval]
    have hg0 : 0 ≤ (c + di) % D := Int.emod_nonneg _ hDne
    have hgD : (c + di) % D < D := Int.emod_lt_of_pos _ hD
    have harg2 : 0 ≤ (c + di) % D + -di + D := by omega
    unfold get_periodic_index
    rw [Int.tmod_eq_emod harg2 hb]
    have hsplit : (c + di) % D + -di + D = c + D * (1 - (c + di) / D) := by
      rw [Int.emod_def]; ring
    rw [hsplit, Int.add_mul_emod_self_left, Int.emod_eq_of_lt hc0 hcD]

/-- C6 witness: the amended statement instantiated at D = 5, c = 1, di = 4. -/
theorem claim_C6_witness :
    get_periodic_index 1 4 5 = ((1 + 4 : Int).tmod 5 + 5).tmod 5 ∧
    0 ≤ get_periodic_index 1 4 5 ∧
    get_periodic_index 1 4 5 < 5 ∧
    get_periodic_index (get_periodic_index 1 4 5) (-4) 5 = 1 :=
  claim_C6 5 1 4 (by decide) (by decide) (by decide) (by decide) (by decide)

/-- C4: the CutOff neighborhood generator diverges from the claim.  For a
1D grid [10, 20, 30, 40, 50] with radius 1 and focus index 1, the source
emits [10, 20]: the offset di = -1 reaches absolute coordinate 0, which the
bound check `neighbor_i <= 0` drops (the claim says coordinate 0 is
retained), and the surviving offsets di = 0, 1 are read as `vector[di]`
(cells 10, 20) instead of `vector[i + di]` (cells 20, 30).  The spec
version of the same enumeration emits [10, 20, 30]. -/
theorem claim_C4 :
    generate_cutoff_neighborhood_1d 1 5 [10, 20, 30, 40, 50] 1 = [10, 20] ∧
    spec_cutoff_neighborhood_1d 1 5 [10, 20, 30, 40, 50] 1 = [10, 20, 30] ∧
    generate_cutoff_neighborhood_1d 1 5 [10, 20, 30, 40, 50] 1 ≠
      spec_cutoff_neighborhood_1d 1 5 [10, 20, 30, 40, 50] 1 := by
  refine ⟨?_, ?_, ?_⟩ <;> decide

/-- C1 counterexample: with the Parity rule, Periodic boundary, radius 1 and
num_states 2, one step on the freshly initialized 1D grid with
current = [1,0,0,1,0] does not produce [0,1,1,1,1] (it produces [1,1,1,1,0]:
the periodic sums are 1,1,1,1,2). -/
theorem claim_C1_cex :
    (step_1d demo_cfg_parity [0, 1] 5 ⟨[1, 0, 0, 1, 0], [0, 0, 0, 0, 0], 0⟩).2.vector ≠
      [0, 1, 1, 1, 1] := by
  decide

/-- C2: step performs no pre-pass reset of the next buffer.  Two Parity steps
from the fresh grid [1,1,1,0,0] (next buffer all zero): during the second step
the only writer of coordinate 0 computes the empty value 0 (so nothing is
written there), yet after the step coordinate 0 holds 1 — the stale value of
generation 0 left in the next buffer by the swap — instead of the
default-constructed empty value 0 that the claim requires. -/
theorem claim_C2 :
    (get_state_from_neighborhood_1d demo_cfg_parity [0, 1] 5
        (step_1d demo_cfg_parity [0, 1] 5
          ⟨[1, 1, 1, 0, 0], [0, 0, 0, 0, 0], 0⟩).2.vector 0).2 = 0 ∧
    (step_1d demo_cfg_parity [0, 1] 5
        (step_1d demo_cfg_parity [0, 1] 5
          ⟨[1, 1, 1, 0, 0], [0, 0, 0, 0, 0], 0⟩).2).2.vector[0]? = some 1 ∧
    (1 : Int) ≠ 0 := by
  refine ⟨?_, ?_, ?_⟩ <;> decide

/-- C8: setup_boundary does not check axis 1 for a tensor grid.  On a 3D
engine with dimensions 2 x 10 x 10 the call setup_boundary(Periodic, 4)
succeeds and installs radius 4, although 4 exceeds ⌊axis1_dim/2⌋ = 1, for
which the claim requires the Radius-too-large failure. -/
theorem claim_C8 :
    (setup_boundary demo_tensor_engine CAEnums.Boundary.Periodic 4).1 = 0 ∧
    (setup_boundary demo_tensor_engine CAEnums.Boundary.Periodic 4).2.boundary_radius = 4 ∧
    demo_tensor_engine.axis1_dim.tdiv 2 < 4 := by
  refine ⟨?_, ?_, ?_⟩ <;> decide

/-- C9 counterexample: after a successful setup_dimensions_1d, a call to
setup_dimensions_2d does not fail with Already-initialized: it succeeds
(returns 0) and allocates the matrix grid. -/
theorem claim_C9_cex :
    (setup_dimensions_2d (setup_dimensions_1d default_engine 5).2 4 4).1 = 0 ∧
    (setup_dimensions_2d (setup_dimensions_1d default_engine 5).2 4 4).1 ≠
      CAEnums.CellsAlreadyInitialized ∧
    (setup_dimensions_2d (setup_dimensions_1d default_engine 5).2 4 4).2.hasMatrix = true := by
  refine ⟨?_, ?_, ?_⟩ <;> decide

/-- C9 (amended): a repeated call to the same-rank setup_dimensions operation
fails with Already-initialized and leaves the engine unchanged; the guard
only inspects the pointer of its own rank, so configuring a different rank is
not blocked (see the counterexample). -/
theorem claim_C9 (s : EngineState) (a1 a2 a3 b1 b2 b3 : Int) :
    ((setup_dimensions_1d s a1).1 = 0 →
      setup_dimensions_1d (setup_dimensions_1d s a1).2 b1 =
        (CAEnums.CellsAlreadyInitialized, (setup_dimensions_1d s a1).2)) ∧
    ((setup_dimensions_2d s a1 a2).1 = 0 →
      setup_dimensions_2d (setup_dimensions_2d s a1 a2).2 b1 b2 =
        (CAEnums.CellsAlreadyInitialized, (setup_dimensions_2d s a1 a2).2)) ∧
    ((setup_dimensions_3d s a1 a2 a3).1 = 0 →
      setup_dimensions_3d (setup_dimensions_3d s a1 a2 a3).2 b1 b2 b3 =
        (CAEnums.CellsAlreadyInitialized, (setup_dimensions_3d s a1 a2 a3).2)) := by
  refine ⟨?_, ?_, ?_⟩
  · intro h
    by_cases hv : s.hasVector
    · simp [setup_dimensions_1d, hv, CAEnums.CellsAlreadyInitialized] at h
    · simp [setup_dimensions_1d, hv]
  · intro h
    by_cases hv : s.hasMatrix
    · simp [setup_dimensions_2d, hv, CAEnums.CellsAlreadyInitialized] at h
    · simp [setup_dimensions_2d, hv]
  · intro h
    by_cases hv : s.hasTensor
    · simp [setup_dimensions_3d, hv, CAEnums.CellsAlreadyInitialized] at h
    · simp [setup_dimensions_3d, hv]

/-- C9 witness: the amended statement applied to the default engine. -/
theorem claim_C9_witness :
    setup_dimensions_1d (setup_dimensions_1d default_engine 5).2 9 =
      (CAEnums.CellsAlreadyInitialized, (setup_dimensions_1d default_engine 5).2) :=
  (claim_C9 default_engine 5 0 0 9 0 0).1 (by decide)

/-- For the built-in Parity and Majority rules, set_new_cell_state reports no
error. -/
theorem set_new_cell_state_no_error (order : List Int) (rt : CAEnums.Rule)
    (ns : Int) (nbhd : List Int) (h : rt ≠ CAEnums.Rule.Custom) :
    (set_new_cell_state order rt ns nbhd).1 = 0 := by
  cases rt with
  | Custom => exact absurd rfl h
  | Parity => rfl
  | Majority => rfl

/-- For the built-in Parity and Majority rules, the 1D state computation
reports no error under any boundary. -/
theorem get_state_1d_no_error (cfg : CAConfig) (order : List Int)
    (axis1_dim : Int) (vector : List Int) (i : Int)
    (h : cfg.rule_type ≠ CAEnums.Rule.Custom) :
    (get_state_from_neighborhood_1d cfg order axis1_dim vector i).1 = 0 := by
  rcases cfg with ⟨bt, br, nt, ns, rt⟩
  cases bt with
  | Periodic => exact set_new_cell_state_no_error _ _ _ _ h
  | Walled =>
      dsimp only [get_state_from_neighborhood_1d]
      split
      · rfl
      · exact set_new_cell_state_no_error _ _ _ _ h
  | CutOff => exact set_new_cell_state_no_error _ _ _ _ h

/-- Unrolling the 1D cell loop: with an error-free rule the loop keeps the
error code at 0, preserves the length of the next buffer, and each slot
either receives the non-empty computed value of its own cell or keeps its
previous content. -/
theorem step_fold_1d (cfg : CAConfig) (order : List Int) (axis1_dim : Int)
    (vector : List Int) (h : cfg.rule_type ≠ CAEnums.Rule.Custom)
    (nx : List Int) (m : Nat) (hm : m ≤ nx.length) :
    ((List.range m).foldl (step_cell_write_1d cfg order axis1_dim vector) (0, nx)).1 = 0 ∧
    ((List.range m).foldl (step_cell_write_1d cfg order axis1_dim vector) (0, nx)).2.length =
      nx.length ∧
    ∀ j : Nat,
      ((List.range m).foldl (step_cell_write_1d cfg order axis1_dim vector) (0, nx)).2[j]? =
        if j < m ∧ (get_state_from_neighborhood_1d cfg order axis1_dim vector (j : Int)).2 ≠ 0
        then some (get_state_from_neighborhood_1d cfg order axis1_dim vector (j : Int)).2
        else nx[j]? := by
  induction m with
  | zero => simp
  | succ m ih =>
      have hm2 : m ≤ nx.length := Nat.le_of_succ_le hm
      have hmlen : m < nx.length := hm
      obtain ⟨ih1, ih2, ih3⟩ := ih hm2
      rw [List.range_succ, List.foldl_append, List.foldl_cons, List.foldl_nil]
      have herr : (get_state_from_neighborhood_1d cfg order axis1_dim vector (m : Int)).1 = 0 :=
        get_state_1d_no_error cfg order axis1_dim vector (m : Int) h
      set res := (List.range m).foldl (step_cell_write_1d cfg order axis1_dim vector) (0, nx)
        with hres
      by_cases hval : (get_state_from_neighborhood_1d cfg order axis1_dim vector (m : Int)).2 = 0
      · have hstep : step_cell_write_1d cfg order axis1_dim vector res m = (0, res.2) := by
          simp [step_cell_write_1d, ih1, herr, hval]
        rw [hstep]
        refine ⟨rfl, ih2, ?_⟩
        intro j
        show res.2[j]? = _
        rw [ih3 j]
        by_cases hj : j = m
        · subst hj
          simp [hval]
        · by_cases hjm : j < m
          · have hjm1 : j < m + 1 := Nat.lt_succ_of_lt hjm
            simp only [hjm, hjm1, true_and]
          · have hjm1 : ¬ j < m + 1 := by omega
            simp only [hjm, hjm1, false_and, if_false]
      · have hstep : step_cell_write_1d cfg order axis1_dim vector res m =
            (0, res.2.set m (get_state_from_neighborhood_1d cfg order axis1_dim vector (m : Int)).2) := by
          simp [step_cell_write_1d, ih1, herr, hval]
        rw [hstep]
        refine ⟨rfl, by rw [List.length_set]; exact ih2, ?_⟩
        intro j
        by_cases hj : j = m
        · subst hj
          have hjlen : j < res.2.length := by rw [ih2]; exact hmlen
          rw [List.getElem?_set_self hjlen]
          simp [hval]
        · rw [List.getElem?_set_ne (fun hmj => hj hmj.symm)]
          rw [ih3 j]
          by_cases hjm : j < m
          · have hjm1 : j < m + 1 := Nat.lt_succ_of_lt hjm
            simp only [hjm, hjm1, true_and]
          · have hjm1 : ¬ j < m + 1 := by omega
            simp only [hjm, hjm1, false_and, if_false]

/-- C1 (amended): on a freshly initialized 1D grid (next buffer all zero)
with the Periodic boundary and the Parity rule, one step gives every cell the
sum of its emitted periodic neighborhood (which includes the focus cell)
taken modulo num_states; on the concrete scenario grid [1,0,0,1,0] with
radius 1 and num_states 2 the result is [1,1,1,1,0] (the claim says
[0,1,1,1,1]; see the counterexample). -/
theorem claim_C1 (cfg : CAConfig) (order : List Int) (v : List Int) (j : Nat)
    (hb : cfg.boundary_type = CAEnums.Boundary.Periodic)
    (hr : cfg.rule_type = CAEnums.Rule.Parity)
    (hj : j < v.length) :
    (step_1d demo_cfg_parity [0, 1] 5 ⟨[1, 0, 0, 1, 0], [0, 0, 0, 0, 0], 0⟩).2.vector =
      [1, 1, 1, 1, 0] ∧
    ((step_1d cfg order (v.length : Int) ⟨v, List.replicate v.length 0, 0⟩).2.vector)[j]? =
      some (((generate_periodic_neighborhood_1d cfg.boundary_radius (v.length : Int) v
          (j : Int)).foldl (fun sum s => sum + s) 0).tmod cfg.num_states) := by
  refine ⟨by decide, ?_⟩
  have hcustom : cfg.rule_type ≠ CAEnums.Rule.Custom := by
    rw [hr]
    intro hc
    cases hc
  have hlen : (List.replicate v.length (0 : Int)).length = v.length :=
    List.length_replicate _ _
  obtain ⟨h1, h2, h3⟩ := step_fold_1d cfg order (v.length : Int) v hcustom
    (List.replicate v.length 0) v.length (le_of_eq hlen.symm)
  have hval : get_state_from_neighborhood_1d cfg order (v.length : Int) v (j : Int) =
      (0, ((generate_periodic_neighborhood_1d cfg.boundary_radius (v.length : Int) v
        (j : Int)).foldl (fun sum s => sum + s) 0).tmod cfg.num_states) := by
    simp only [get_state_from_neighborhood_1d, hb, hr, set_new_cell_state]
  unfold step_1d
  simp only [Int.toNat_natCast]
  rw [if_neg (by rw [h1]; omega)]
  show ((List.range v.length).foldl _ (0, List.replicate v.length 0)).2[j]? = _
  rw [h3 j, hval]
  by_cases hz : ((generate_periodic_neighborhood_1d cfg.boundary_radius (v.length : Int) v
      (j : Int)).foldl (fun sum s => sum + s) 0).tmod cfg.num_states = 0
  · rw [if_neg (by simp [hz])]
    rw [List.getElem?_replicate, if_pos hj, hz]
  · rw [if_pos ⟨hj, by simpa using hz⟩]

/-- C1 witness: the amended statement instantiated on the scenario grid at
cell index 0. -/
theorem claim_C1_witness :
    (step_1d demo_cfg_parity [0, 1] 5 ⟨[1, 0, 0, 1, 0], [0, 0, 0, 0, 0], 0⟩).2.vector =
      [1, 1, 1, 1, 0] ∧
    ((step_1d demo_cfg_parity [0, 1] 5
        ⟨[1, 0, 0, 1, 0], List.replicate 5 0, 0⟩).2.vector)[0]? =
      some (((generate_periodic_neighborhood_1d 1 5 [1, 0, 0, 1, 0] 0).foldl
        (fun sum s => sum + s) 0).tmod 2) := by
  have h := claim_C1 demo_cfg_parity [0, 1] [1, 0, 0, 1, 0] 0 rfl rfl (by decide)
  simpa [demo_cfg_parity] using h

/-- The vote counter after the voting loop: every registered state holds the
number of neighbors whose state equals it; neighbors whose state is not a key
of the counter contribute to no entry. -/
theorem count_votes_eq (counter : List (Int × Int)) (nbrs : List Int) :
    count_votes counter nbrs =
      counter.map (fun kv => (kv.1, kv.2 + (nbrs.count kv.1 : Int))) := by
  induction nbrs generalizing counter with
  | nil => simp [count_votes]
  | cons a rest ih =>
      have h1 : count_votes counter (a :: rest) = count_votes (tally_vote counter a) rest := rfl
      rw [h1, ih, tally_vote, List.map_map]
      apply List.map_congr_left
      intro kv _
      by_cases hk : kv.1 = a
      · have hbeq : (kv.1 == a) = true := beq_iff_eq.mpr hk
        simp only [Function.comp, hk, if_pos rfl, List.count_cons, beq_self_eq_true, if_true]
        refine Prod.ext rfl ?_
        push_cast
        ring
      · have hbeq : (a == kv.1) = false := beq_eq_false_iff_ne.mpr (Ne.symm hk)
        simp only [Function.comp, if_neg hk, List.count_cons, hbeq, Bool.false_eq_true,
          if_false]
        refine Prod.ext rfl ?_
        push_cast
        ring

/-- The foldl underlying max_element returns the accumulator or a list
element. -/
theorem foldl_pick_mem (l : List (Int × Int)) (acc : Int × Int) :
    l.foldl (fun largest y => if less_than_votes largest y then y else largest) acc = acc ∨
    l.foldl (fun largest y => if less_than_votes largest y then y else largest) acc ∈ l := by
  induction l generalizing acc with
  | nil => left; rfl
  | cons y ys ih =>
      rw [List.foldl_cons]
      rcases ih (if less_than_votes acc y then y else acc) with h | h
      · rw [h]
        by_cases hc : less_than_votes acc y
        · right
          simp [hc]
        · left
          simp [hc]
      · right
        exact List.mem_cons_of_mem _ h

/-- max_element of a non-empty counter is one of its entries. -/
theorem max_element_mem (x : Int × Int) (xs : List (Int × Int)) :
    max_element (x :: xs) ∈ x :: xs := by
  show xs.foldl (fun largest y => if less_than_votes largest y then y else largest) x ∈ x :: xs
  rcases foldl_pick_mem xs x with h | h
  · rw [h]
    exact List.mem_cons_self _ _
  · exact List.mem_cons_of_mem _ h

/-- C10: for any iteration order of the vote counter that is a permutation of
the registered states 0 .. num_states-1, a neighbor state outside
[0, num_states) increments no counter entry (each entry counts exactly the
neighbors equal to its key), and the Majority result is a counter key, hence
always lies in [0, num_states) regardless of the cell values in the grid. -/
theorem claim_C10 (n : Int) (order : List Int) (nbrs : List Int)
    (hn : 1 ≤ n)
    (hperm : order.Perm ((List.range n.toNat).map Int.ofNat)) :
    count_votes (initialize_majority_rule_counter order) nbrs =
      order.map (fun s => (s, (nbrs.count s : Int))) ∧
    0 ≤ (set_new_cell_state order CAEnums.Rule.Majority n nbrs).2 ∧
    (set_new_cell_state order CAEnums.Rule.Majority n nbrs).2 < n := by
  have hcount : count_votes (initialize_majority_rule_counter order) nbrs =
      order.map (fun s => (s, (nbrs.count s : Int))) := by
    rw [initialize_majority_rule_counter, count_votes_eq, List.map_map]
    simp [Function.comp]
  have hkey : ∃ s ∈ order, (set_new_cell_state order CAEnums.Rule.Majority n nbrs).2 = s := by
    have hres : (set_new_cell_state order CAEnums.Rule.Majority n nbrs).2 =
        (max_element (order.map (fun s => (s, (nbrs.count s : Int))))).1 := by
      simp only [set_new_cell_state, hcount]
    cases horder : order with
    | nil =>
        exfalso
        have hnil : (List.range n.toNat).map Int.ofNat = [] := by
          rw [horder] at hperm
          exact hperm.nil_eq.symm
        have hlen : n.toNat = 0 := by simpa using congrArg List.length hnil
        omega
    | cons o os =>
        rw [horder] at hres
        simp only [List.map_cons] at hres
        have hm := max_element_mem (o, (nbrs.count o : Int))
          (os.map (fun s => (s, (nbrs.count s : Int))))
        have hmem : max_element ((o, (nbrs.count o : Int)) ::
            os.map (fun s => (s, (nbrs.count s : Int)))) ∈
            (o :: os).map (fun s => (s, (nbrs.count s : Int))) := by
          simpa using hm
        obtain ⟨s, hs, hfs⟩ := List.mem_map.mp hmem
        refine ⟨s, hs, ?_⟩
        rw [hres, ← hfs]
  obtain ⟨s, hs, heq⟩ := hkey
  have hsmem : s ∈ (List.range n.toNat).map Int.ofNat := hperm.mem_iff.mp hs
  obtain ⟨t, ht, hts⟩ := List.mem_map.mp hsmem
  have htn : t < n.toNat := List.mem_range.mp ht
  refine ⟨hcount, ?_, ?_⟩
  · rw [heq, ← hts]
    exact Int.natCast_nonneg t
  · rw [heq, ← hts]
    simp only [Int.ofNat_eq_natCast]
    omega

/-- C10 witness: two states, iteration order [1, 0], neighbors outside
[0, 2) present. -/
theorem claim_C10_witness :
    count_votes (initialize_majority_rule_counter [1, 0]) [5, -3, 0, 0, 7] =
      ([1, 0] : List Int).map (fun s => (s, (([5, -3, 0, 0, 7] : List Int).count s : Int))) ∧
    0 ≤ (set_new_cell_state [1, 0] CAEnums.Rule.Majority 2 [5, -3, 0, 0, 7]).2 ∧
    (set_new_cell_state [1, 0] CAEnums.Rule.Majority 2 [5, -3, 0, 0, 7]).2 < 2 :=
  claim_C10 2 [1, 0] [5, -3, 0, 0, 7] (by decide) (by decide)

set_option maxRecDepth 8000 in
/-- C3: with the Walled boundary the 3D edge cells are not all preserved.
The Walled check of the source compares j, not k, with axis3_dim - 1, so the
edge cell (1,1,2) of an all-ones 3 x 3 x 3 grid (k = axis3_dim - 1, i and j
interior) is not frozen: under Parity with num_states 3 its cutoff
neighborhood has 8 cells summing to 8, and one step changes the cell from 1
to 2, contradicting the claim at rank 3. -/
theorem claim_C3 :
    tenGet (step_3d demo_cfg_walled [0, 1, 2] 3 3 3
        ⟨ones_3x3x3, ones_3x3x3, 0⟩).2.tensor 1 1 2 = 2 ∧
    tenGet ones_3x3x3 1 1 2 = 1 ∧
    (2 : Int) ≠ 1 := by
  refine ⟨?_, ?_, ?_⟩ <;> decide

/-- Length of the loop offset list. -/
theorem offsets_range_length (R : Nat) :
    (offsets_range (R : Int)).length = 2 * R + 1 := by
  rw [offsets_range, List.length_map, List.length_range]
  omega

/-- The q-th loop offset is q - radius. -/
theorem offsets_range_getElem (R q : Nat) (hq : q < 2 * R + 1) :
    (offsets_range (R : Int))[q]? = some ((q : Int) - R) := by
  have hq2 : q < (2 * (R : Int) + 1).toNat := by omega
  rw [offsets_range, List.getElem?_map, List.getElem?_range hq2]
  rfl

/-- Every loop offset lies in [-radius, radius]. -/
theorem mem_offsets_range (R : Nat) (x : Int) (hx : x ∈ offsets_range (R : Int)) :
    -(R : Int) ≤ x ∧ x ≤ R := by
  rw [offsets_range] at hx
  obtain ⟨t, ht, rfl⟩ := List.mem_map.mp hx
  have h2 : t < (2 * (R : Int) + 1).toNat := List.mem_range.mp ht
  omega

/-- Indexing a concatenation of equal-length blocks: entry q sits in block
q / m at position q % m. -/
theorem flatMap_getElem_const {α β : Type} (L : List α) (f : α → List β) (m : Nat)
    (hm : 0 < m) (hf : ∀ a ∈ L, (f a).length = m) (q : Nat) :
    (L.flatMap f)[q]? = L[q / m]?.bind (fun a => (f a)[q % m]?) := by
  induction L generalizing q with
  | nil => simp
  | cons a Ltail ih =>
      rw [List.flatMap_cons]
      by_cases hq : q < m
      · rw [List.getElem?_append_left (by rw [hf a (List.mem_cons_self a Ltail)]; exact hq)]
        rw [Nat.div_eq_of_lt hq, Nat.mod_eq_of_lt hq]
        simp
      · push_neg at hq
        obtain ⟨q2, rfl⟩ : ∃ q2, q = q2 + m := ⟨q - m, by omega⟩
        rw [List.getElem?_append_right (by rw [hf a (List.mem_cons_self a Ltail)]; omega)]
        rw [hf a (List.mem_cons_self a Ltail)]
        have h3 : q2 + m - m = q2 := by omega
        rw [h3, ih (fun x hx => hf x (List.mem_cons_of_mem a hx)) q2]
        rw [Nat.add_div_right q2 hm, Nat.add_mod_right q2 m, List.getElem?_cons_succ]

/-- Length of a concatenation of equal-length blocks. -/
theorem flatMap_length_const {α β : Type} (L : List α) (f : α → List β) (m : Nat)
    (hf : ∀ a ∈ L, (f a).length = m) :
    (L.flatMap f).length = L.length * m := by
  induction L with
  | nil => simp
  | cons a Ltail ih =>
      rw [List.flatMap_cons, List.length_append, hf a (List.mem_cons_self a Ltail),
        ih (fun x hx => hf x (List.mem_cons_of_mem a hx)), List.length_cons]
      ring

/-- The loop offsets split into the negative arm, the zero offset, and the
positive arm. -/
theorem offsets_range_decomp (R : Nat) :
    offsets_range (R : Int) =
      (List.range R).map (fun t : Nat => (t : Int) - R) ++ [0] ++
      (List.range R).map (fun t : Nat => (t : Int) + 1) := by
  rw [offsets_range]
  have h1 : (2 * (R : Int) + 1).toNat = R + (1 + R) := by omega
  rw [h1, List.range_add, List.range_add]
  have h2 : List.range 1 = [0] := rfl
  rw [h2]
  simp only [List.map_append, List.map_map, List.map_cons, List.map_nil, List.singleton_append,
    List.cons_append, List.nil_append, Function.comp]
  rw [List.append_assoc]
  congr 1
  rw [← List.singleton_append]
  congr 1
  · simp
  · apply List.map_congr_left
    intro t ht
    simp only [Function.comp]
    push_cast
    ring

/-- A filter over the loop offsets that vanishes away from offset 0 keeps at
most the entry produced at 0. -/
theorem filterMap_offsets_byzero {β : Type} (R : Nat) (f : Int → Option β)
    (hne : ∀ x : Int, x ≠ 0 → f x = none) :
    (offsets_range (R : Int)).filterMap f = (f 0).toList := by
  rw [offsets_range_decomp R, List.filterMap_append, List.filterMap_append]
  have hA : ((List.range R).map (fun t : Nat => (t : Int) - R)).filterMap f = [] := by
    rw [List.filterMap_eq_nil_iff]
    intro a ha
    obtain ⟨t, ht, rfl⟩ := List.mem_map.mp ha
    have h2 : t < R := List.mem_range.mp ht
    exact hne _ (by omega)
  have hC : ((List.range R).map (fun t : Nat => (t : Int) + 1)).filterMap f = [] := by
    rw [List.filterMap_eq_nil_iff]
    intro a ha
    obtain ⟨t, ht, rfl⟩ := List.mem_map.mp ha
    exact hne _ (by omega)
  rw [hA, hC]
  cases hf : f 0 <;> simp [List.filterMap_cons, hf]

/-- A flatMap over the loop offsets whose blocks vanish away from offset 0. -/
theorem flatMap_offsets_byzero {β : Type} (R : Nat) (f : Int → List β)
    (hne : ∀ x : Int, x ≠ 0 → f x = []) :
    (offsets_range (R : Int)).flatMap f = f 0 := by
  rw [offsets_range_decomp R, List.flatMap_append, List.flatMap_append]
  have hA : ((List.range R).map (fun t : Nat => (t : Int) - R)).flatMap f = [] := by
    rw [List.flatMap_eq_nil_iff]
    intro a ha
    obtain ⟨t, ht, rfl⟩ := List.mem_map.mp ha
    have h2 : t < R := List.mem_range.mp ht
    exact hne _ (by omega)
  have hC : ((List.range R).map (fun t : Nat => (t : Int) + 1)).flatMap f = [] := by
    rw [List.flatMap_eq_nil_iff]
    intro a ha
    obtain ⟨t, ht, rfl⟩ := List.mem_map.mp ha
    exact hne _ (by omega)
  rw [hA, hC]
  simp

/-- A flatMap whose blocks are singletons is a map. -/
theorem flatMap_eq_map_of_single {α β : Type} (l : List α) (f : α → List β)
    (g : α → β) (h : ∀ a ∈ l, f a = [g a]) : l.flatMap f = l.map g := by
  induction l with
  | nil => rfl
  | cons a tl ih =>
      rw [List.flatMap_cons, h a (List.mem_cons_self a tl),
        ih (fun x hx => h x (List.mem_cons_of_mem a hx)), List.map_cons,
        List.singleton_append]

/-- The VonNeumann 2D offset enumeration consists of the negative axis-1 arm,
the full middle row, and the positive axis-1 arm, in that order. -/
theorem periodic_vn_offsets_2d_eq (R : Nat) :
    periodic_vn_offsets_2d (R : Int) =
      (List.range R).map (fun t : Nat => [(t : Int) - R, 0]) ++
      (List.range (2 * R + 1)).map (fun t : Nat => [0, (t : Int) - R]) ++
      (List.range R).map (fun t : Nat => [(t : Int) + 1, 0]) := by
  have harm : ∀ di : Int, di ≠ 0 →
      ((offsets_range (R : Int)).filterMap (fun dj =>
        if is_diagonal_neighboring_cell_2d di dj then none else some [di, dj])) =
      [[di, 0]] := by
    intro di hdi
    have hne : ∀ x : Int, x ≠ 0 →
        (if is_diagonal_neighboring_cell_2d di x then none else some [di, x]) =
        (none : Option (List Int)) := by
      intro x hx
      have hd : is_diagonal_neighboring_cell_2d di x = true := by
        simp [is_diagonal_neighboring_cell_2d, hdi, hx]
      simp [hd]
    rw [filterMap_offsets_byzero R _ hne]
    have hd0 : is_diagonal_neighboring_cell_2d di 0 = false := by
      simp [is_diagonal_neighboring_cell_2d]
    simp [hd0]
  rw [periodic_vn_offsets_2d]
  nth_rewrite 1 [offsets_range_decomp R]
  rw [List.flatMap_append, List.flatMap_append]
  have hA : ((List.range R).map (fun t : Nat => (t : Int) - R)).flatMap
      (fun di => (offsets_range (R : Int)).filterMap (fun dj =>
        if is_diagonal_neighboring_cell_2d di dj then none else some [di, dj])) =
      (List.range R).map (fun t : Nat => [(t : Int) - R, 0]) := by
    rw [flatMap_eq_map_of_single _ _ (fun di => [di, 0]) ?harmA, List.map_map]
    · rfl
    case harmA =>
      intro a ha
      obtain ⟨t, ht, rfl⟩ := List.mem_map.mp ha
      have h2 : t < R := List.mem_range.mp ht
      exact harm _ (by omega)
  have hC : ((List.range R).map (fun t : Nat => (t : Int) + 1)).flatMap
      (fun di => (offsets_range (R : Int)).filterMap (fun dj =>
        if is_diagonal_neighboring_cell_2d di dj then none else some [di, dj])) =
      (List.range R).map (fun t : Nat => [(t : Int) + 1, 0]) := by
    rw [flatMap_eq_map_of_single _ _ (fun di => [di, 0]) ?harmC, List.map_map]
    · rfl
    case harmC =>
      intro a ha
      obtain ⟨t, ht, rfl⟩ := List.mem_map.mp ha
      exact harm _ (by omega)
  have hB : ([(0 : Int)]).flatMap
      (fun di => (offsets_range (R : Int)).filterMap (fun dj =>
        if is_diagonal_neighboring_cell_2d di dj then none else some [di, dj])) =
      (List.range (2 * R + 1)).map (fun t : Nat => [0, (t : Int) - R]) := by
    rw [List.flatMap_cons, List.flatMap_nil, List.append_nil]
    have hd0 : ∀ dj : Int, is_diagonal_neighboring_cell_2d 0 dj = false := by
      intro dj
      simp [is_diagonal_neighboring_cell_2d]
    have hfn : (fun dj => if is_diagonal_neighboring_cell_2d 0 dj then none
        else some [(0 : Int), dj]) = some ∘ (fun dj : Int => [0, dj]) := by
      funext dj
      simp [hd0 dj, Function.comp]
    rw [hfn, List.filterMap_eq_map, offsets_range, List.map_map]
    have h1 : (2 * (R : Int) + 1).toNat = 2 * R + 1 := by omega
    rw [h1]
    rfl
  rw [hA, hB, hC]

/-- The VonNeumann 3D offset enumeration: negative axis-1 arm, middle block
(negative axis-2 arm, full axis-3 row, positive axis-2 arm), positive axis-1
arm, in that order. -/
theorem periodic_vn_offsets_3d_eq (R : Nat) :
    periodic_vn_offsets_3d (R : Int) =
      (List.range R).map (fun t : Nat => [(t : Int) - R, 0, 0]) ++
      ((List.range R).map (fun t : Nat => [0, (t : Int) - R, 0]) ++
        (List.range (2 * R + 1)).map (fun t : Nat => [0, 0, (t : Int) - R]) ++
        (List.range R).map (fun t : Nat => [0, (t : Int) + 1, 0])) ++
      (List.range R).map (fun t : Nat => [(t : Int) + 1, 0, 0]) := by
  have harm : ∀ di : Int, di ≠ 0 →
      ((offsets_range (R : Int)).flatMap (fun dj =>
        (offsets_range (R : Int)).filterMap (fun dk =>
          if is_diagonal_neighboring_cell_3d di dj dk then none
          else some [di, dj, dk]))) = [[di, 0, 0]] := by
    intro di hdi
    have hblock : ∀ dj : Int, dj ≠ 0 →
        ((offsets_range (R : Int)).filterMap (fun dk =>
          if is_diagonal_neighboring_cell_3d di dj dk then none
          else some [di, dj, dk])) = [] := by
      intro dj hdj
      rw [List.filterMap_eq_nil_iff]
      intro dk _
      have hd : is_diagonal_neighboring_cell_3d di dj dk = true := by
        simp [is_diagonal_neighboring_cell_3d, hdi, hdj]
      simp [hd]
    rw [flatMap_offsets_byzero R _ hblock]
    have hne : ∀ x : Int, x ≠ 0 →
        (if is_diagonal_neighboring_cell_3d di 0 x then none
          else some [di, 0, x]) = (none : Option (List Int)) := by
      intro x hx
      have hd : is_diagonal_neighboring_cell_3d di 0 x = true := by
        simp [is_diagonal_neighboring_cell_3d, hdi, hx]
      simp [hd]
    rw [filterMap_offsets_byzero R _ hne]
    have hd0 : is_diagonal_neighboring_cell_3d di 0 0 = false := by
      simp [is_diagonal_neighboring_cell_3d]
    simp [hd0]
  have hmid : ((offsets_range (R : Int)).flatMap (fun dj =>
      (offsets_range (R : Int)).filterMap (fun dk =>
        if is_diagonal_neighboring_cell_3d 0 dj dk then none
        else some [(0 : Int), dj, dk]))) =
      (List.range R).map (fun t : Nat => [0, (t : Int) - R, 0]) ++
      (List.range (2 * R + 1)).map (fun t : Nat => [0, 0, (t : Int) - R]) ++
      (List.range R).map (fun t : Nat => [0, (t : Int) + 1, 0]) := by
    have hblock : ∀ dj : Int, dj ≠ 0 →
        ((offsets_range (R : Int)).filterMap (fun dk =>
          if is_diagonal_neighboring_cell_3d 0 dj dk then none
          else some [(0 : Int), dj, dk])) = [[0, dj, 0]] := by
      intro dj hdj
      have hne : ∀ x : Int, x ≠ 0 →
          (if is_diagonal_neighboring_cell_3d 0 dj x then none
            else some [(0 : Int), dj, x]) = (none : Option (List Int)) := by
        intro x hx
        have hd : is_diagonal_neighboring_cell_3d 0 dj x = true := by
          simp [is_diagonal_neighboring_cell_3d, hdj, hx]
        simp [hd]
      rw [filterMap_offsets_byzero R _ hne]
      have hd0 : is_diagonal_neighboring_cell_3d 0 dj 0 = false := by
        simp [is_diagonal_neighboring_cell_3d]
      simp [hd0]
    nth_rewrite 1 [offsets_range_decomp R]
    rw [List.flatMap_append, List.flatMap_append]
    have hA : ((List.range R).map (fun t : Nat => (t : Int) - R)).flatMap
        (fun dj => (offsets_range (R : Int)).filterMap (fun dk =>
          if is_diagonal_neighboring_cell_3d 0 dj dk then none
          else some [(0 : Int), dj, dk])) =
        (List.range R).map (fun t : Nat => [0, (t : Int) - R, 0]) := by
      rw [flatMap_eq_map_of_single _ _ (fun dj => [0, dj, 0]) ?hblockA, List.map_map]
      · rfl
      case hblockA =>
        intro a ha
        obtain ⟨t, ht, rfl⟩ := List.mem_map.mp ha
        have h2 : t < R := List.mem_range.mp ht
        exact hblock _ (by omega)
    have hC : ((List.range R).map (fun t : Nat => (t : Int) + 1)).flatMap
        (fun dj => (offsets_range (R : Int)).filterMap (fun dk =>
          if is_diagonal_neighboring_cell_3d 0 dj dk then none
          else some [(0 : Int), dj, dk])) =
        (List.range R).map (fun t : Nat => [0, (t : Int) + 1, 0]) := by
      rw [flatMap_eq_map_of_single _ _ (fun dj => [0, dj, 0]) ?hblockC, List.map_map]
      · rfl
      case hblockC =>
        intro a ha
        obtain ⟨t, ht, rfl⟩ := List.mem_map.mp ha
        exact hblock _ (by omega)
    have hB : ([(0 : Int)]).flatMap
        (fun dj => (offsets_range (R : Int)).filterMap (fun dk =>
          if is_diagonal_neighboring_cell_3d 0 dj dk then none
          else some [(0 : Int), dj, dk])) =
        (List.range (2 * R + 1)).map (fun t : Nat => [0, 0, (t : Int) - R]) := by
      rw [List.flatMap_cons, List.flatMap_nil, List.append_nil]
      have hd0 : ∀ dk : Int, is_diagonal_neighboring_cell_3d 0 0 dk = false := by
        intro dk
        simp [is_diagonal_neighboring_cell_3d]
      have hfn : (fun dk => if is_diagonal_neighboring_cell_3d 0 0 dk then none
          else some [(0 : Int), 0, dk]) = some ∘ (fun dk : Int => [0, 0, dk]) := by
        funext dk
        simp [hd0 dk, Function.comp]
      rw [hfn, List.filterMap_eq_map, offsets_range, List.map_map]
      have h1 : (2 * (R : Int) + 1).toNat = 2 * R + 1 := by omega
      rw [h1]
      rfl
    rw [hA, hB, hC]
  rw [periodic_vn_offsets_3d]
  nth_rewrite 1 [offsets_range_decomp R]
  rw [List.flatMap_append, List.flatMap_append]
  have hA : ((List.range R).map (fun t : Nat => (t : Int) - R)).flatMap
      (fun di => (offsets_range (R : Int)).flatMap (fun dj =>
        (offsets_range (R : Int)).filterMap (fun dk =>
          if is_diagonal_neighboring_cell_3d di dj dk then none
          else some [di, dj, dk]))) =
      (List.range R).map (fun t : Nat => [(t : Int) - R, 0, 0]) := by
    rw [flatMap_eq_map_of_single _ _ (fun di => [di, 0, 0]) ?harmA, List.map_map]
    · rfl
    case harmA =>
      intro a ha
      obtain ⟨t, ht, rfl⟩ := List.mem_map.mp ha
      have h2 : t < R := List.mem_range.mp ht
      exact harm _ (by omega)
  have hC : ((List.range R).map (fun t : Nat => (t : Int) + 1)).flatMap
      (fun di => (offsets_range (R : Int)).flatMap (fun dj =>
        (offsets_range (R : Int)).filterMap (fun dk =>
          if is_diagonal_neighboring_cell_3d di dj dk then none
          else some [di, dj, dk]))) =
      (List.range R).map (fun t : Nat => [(t : Int) + 1, 0, 0]) := by
    rw [flatMap_eq_map_of_single _ _ (fun di => [di, 0, 0]) ?harmC, List.map_map]
    · rfl
    case harmC =>
      intro a ha
      obtain ⟨t, ht, rfl⟩ := List.mem_map.mp ha
      exact harm _ (by omega)
  have hB : ([(0 : Int)]).flatMap
      (fun di => (offsets_range (R : Int)).flatMap (fun dj =>
        (offsets_range (R : Int)).filterMap (fun dk =>
          if is_diagonal_neighboring_cell_3d di dj dk then none
          else some [di, dj, dk]))) =
      (List.range R).map (fun t : Nat => [0, (t : Int) - R, 0]) ++
      (List.range (2 * R + 1)).map (fun t : Nat => [0, 0, (t : Int) - R]) ++
      (List.range R).map (fun t : Nat => [0, (t : Int) + 1, 0]) := by
    rw [List.flatMap_cons, List.flatMap_nil, List.append_nil]
    exact hmid
  rw [hA, hB, hC]

/-- Element q of the 1D offset enumeration matches both flat-to-offset
functions at rank 1. -/
theorem offsets_1d_getElem (R q : Nat) (hq : q < 2 * R + 1) :
    (periodic_offsets_1d (R : Int))[q]? =
      some (get_periodic_moore_neighbor_index 1 (R : Int) (q : Int)) ∧
    (periodic_offsets_1d (R : Int))[q]? =
      some (get_periodic_von_neumann_neighbor_index 1 (R : Int) (q : Int)) := by
  have h1 : (periodic_offsets_1d (R : Int))[q]? = some [(q : Int) - R] := by
    rw [periodic_offsets_1d, List.getElem?_map, offsets_range_getElem R q hq]
    rfl
  constructor
  · rw [h1]
    simp [get_periodic_moore_neighbor_index]
  · rw [h1]
    simp [get_periodic_von_neumann_neighbor_index]

/-- Element q of the Moore 2D offset enumeration matches the flat-to-offset
function at rank 2. -/
theorem moore_offsets_2d_getElem (R q : Nat) (hq : q < (2 * R + 1) * (2 * R + 1)) :
    (periodic_moore_offsets_2d (R : Int))[q]? =
      some (get_periodic_moore_neighbor_index 2 (R : Int) (q : Int)) := by
  have hm : 0 < 2 * R + 1 := by omega
  have hf : ∀ a ∈ offsets_range (R : Int),
      ((offsets_range (R : Int)).map (fun dj => [a, dj])).length = 2 * R + 1 := by
    intro a _
    rw [List.length_map, offsets_range_length]
  rw [periodic_moore_offsets_2d, flatMap_getElem_const _ _ (2 * R + 1) hm hf q]
  have hdiv : q / (2 * R + 1) < 2 * R + 1 := Nat.div_lt_of_lt_mul (by omega)
  have hmod : q % (2 * R + 1) < 2 * R + 1 := Nat.mod_lt _ hm
  rw [offsets_range_getElem R _ hdiv]
  show ((offsets_range (R : Int)).map (fun dj => [(q / (2 * R + 1) : Nat) - (R : Int), dj]))[q % (2 * R + 1)]? = _
  rw [List.getElem?_map, offsets_range_getElem R _ hmod]
  have hcast : 2 * (R : Int) + 1 = ((2 * R + 1 : Nat) : Int) := by push_cast; ring
  have hflat : get_periodic_moore_neighbor_index 2 (R : Int) (q : Int) =
      [((q / (2 * R + 1) : Nat) : Int) - R, ((q % (2 * R + 1) : Nat) : Int) - R] := by
    simp only [get_periodic_moore_neighbor_index]
    norm_num
    exact ⟨Int.natCast_div q (2 * R + 1), Int.natCast_mod q (2 * R + 1)⟩
  rw [hflat]
  rfl

/-- Element q of the Moore 3D offset enumeration matches the flat-to-offset
function at rank 3. -/
theorem moore_offsets_3d_getElem (R q : Nat)
    (hq : q < (2 * R + 1) * ((2 * R + 1) * (2 * R + 1))) :
    (periodic_moore_offsets_3d (R : Int))[q]? =
      some (get_periodic_moore_neighbor_index 3 (R : Int) (q : Int)) := by
  have hm : 0 < 2 * R + 1 := by omega
  have hm2 : 0 < (2 * R + 1) * (2 * R + 1) := by positivity
  have hfi : ∀ a ∈ offsets_range (R : Int),
      ((offsets_range (R : Int)).flatMap (fun dj =>
        (offsets_range (R : Int)).map (fun dk => [a, dj, dk]))).length =
      (2 * R + 1) * (2 * R + 1) := by
    intro a _
    rw [flatMap_length_const _ _ (2 * R + 1)
      (fun b _ => by rw [List.length_map, offsets_range_length]), offsets_range_length]
  rw [periodic_moore_offsets_3d,
    flatMap_getElem_const _ _ ((2 * R + 1) * (2 * R + 1)) hm2 hfi q]
  have hdiv : q / ((2 * R + 1) * (2 * R + 1)) < 2 * R + 1 :=
    Nat.div_lt_of_lt_mul (by rw [mul_comm] at hq; exact hq)
  rw [offsets_range_getElem R _ hdiv]
  show ((offsets_range (R : Int)).flatMap (fun dj => (offsets_range (R : Int)).map
      (fun dk => [(q / ((2 * R + 1) * (2 * R + 1)) : Nat) - (R : Int), dj, dk])))[q % ((2 * R + 1) * (2 * R + 1))]?
    = _
  rw [flatMap_getElem_const _ _ (2 * R + 1) hm
    (fun b _ => by rw [List.length_map, offsets_range_length])]
  have hdiv2 : (q % ((2 * R + 1) * (2 * R + 1))) / (2 * R + 1) < 2 * R + 1 :=
    Nat.div_lt_of_lt_mul (Nat.mod_lt q hm2)
  rw [offsets_range_getElem R _ hdiv2]
  show ((offsets_range (R : Int)).map (fun dk =>
      [(q / ((2 * R + 1) * (2 * R + 1)) : Nat) - (R : Int),
       ((q % ((2 * R + 1) * (2 * R + 1))) / (2 * R + 1) : Nat) - (R : Int), dk]))[(q % ((2 * R + 1) * (2 * R + 1))) % (2 * R + 1)]?
    = _
  rw [List.getElem?_map, offsets_range_getElem R _ (Nat.mod_lt _ hm)]
  have hcast : (2 * (R : Int) + 1) * (2 * (R : Int) + 1) =
      (((2 * R + 1) * (2 * R + 1) : Nat) : Int) := by push_cast; ring
  have hcast1 : 2 * (R : Int) + 1 = ((2 * R + 1 : Nat) : Int) := by push_cast; ring
  have hflat : get_periodic_moore_neighbor_index 3 (R : Int) (q : Int) =
      [((q / ((2 * R + 1) * (2 * R + 1)) : Nat) : Int) - R,
       (((q % ((2 * R + 1) * (2 * R + 1))) / (2 * R + 1) : Nat) : Int) - R,
       (((q % ((2 * R + 1) * (2 * R + 1))) % (2 * R + 1) : Nat) : Int) - R] := by
    simp only [get_periodic_moore_neighbor_index]
    norm_num
    have hq0 : (0 : Int) ≤ (q : Int) := Int.natCast_nonneg q
    have hM0 : (0 : Int) ≤ (2 * (R : Int) + 1) * (2 * (R : Int) + 1) := by positivity
    have hF0 : (0 : Int) ≤ 2 * (R : Int) + 1 := by positivity
    have hMne : ((2 * (R : Int) + 1) * (2 * (R : Int) + 1)) ≠ 0 := by positivity
    have hmod0 : (0 : Int) ≤ (q : Int) % ((2 * (R : Int) + 1) * (2 * (R : Int) + 1)) :=
      Int.emod_nonneg _ hMne
    refine ⟨Int.natCast_div q ((2 * R + 1) * (2 * R + 1)), ?_, ?_⟩
    · rw [Int.tmod_eq_emod hq0 hM0, Int.tdiv_eq_ediv hmod0 hF0]
    · rw [Int.tmod_eq_emod hq0 hM0, Int.tmod_eq_emod hmod0 hF0]
      apply Int.emod_emod_of_dvd
      exact ⟨2 * (R : Int) + 1, by ring⟩
  rw [hflat]
  rfl

/-- Element q of the VonNeumann 2D offset enumeration matches the
flat-to-offset function at rank 2. -/
theorem vn_offsets_2d_getElem (R q : Nat) (hq : q < 4 * R + 1) :
    (periodic_vn_offsets_2d (R : Int))[q]? =
      some (get_periodic_von_neumann_neighbor_index 2 (R : Int) (q : Int)) := by
  have hlenA : ((List.range R).map (fun t : Nat => [(t : Int) - R, 0])).length = R := by
    rw [List.length_map, List.length_range]
  have hlenB : ((List.range (2 * R + 1)).map
      (fun t : Nat => [(0 : Int), (t : Int) - R])).length = 2 * R + 1 := by
    rw [List.length_map, List.length_range]
  have hmid : (4 * (R : Int) + 1).tdiv 2 = 2 * R := by
    have h1 : 4 * (R : Int) + 1 = ((4 * R + 1 : Nat) : Int) := by push_cast; ring
    have h2 : (2 : Int) = ((2 : Nat) : Int) := rfl
    rw [h1, h2, ← Int.ofNat_tdiv]
    have h3 : (4 * R + 1) / 2 = 2 * R := by omega
    rw [h3]
    push_cast
    ring
  rw [periodic_vn_offsets_2d_eq R]
  by_cases h1 : q < R
  · rw [List.getElem?_append_left (by rw [List.length_append, hlenA, hlenB]; omega),
      List.getElem?_append_left (by rw [hlenA]; omega),
      List.getElem?_map, List.getElem?_range h1]
    show some [(q : Int) - R, 0] =
      some (get_periodic_von_neumann_neighbor_index 2 (R : Int) (q : Int))
    simp only [get_periodic_von_neumann_neighbor_index]
    norm_num
    rw [if_pos (by exact_mod_cast h1)]
    have e : -(R : Int) + (q : Int) = (q : Int) - R := by ring
    rw [e]
  · by_cases h2 : q < 3 * R + 1
    · rw [List.getElem?_append_left (by rw [List.length_append, hlenA, hlenB]; omega),
        List.getElem?_append_right (by rw [hlenA]; omega), hlenA,
        List.getElem?_map, List.getElem?_range (by omega : q - R < 2 * R + 1)]
      show some [(0 : Int), ((q - R : Nat) : Int) - R] =
        some (get_periodic_von_neumann_neighbor_index 2 (R : Int) (q : Int))
      simp only [get_periodic_von_neumann_neighbor_index]
      norm_num
      rw [if_neg (by omega), if_neg (by omega), hmid]
      have e : ((q - R : Nat) : Int) - R = (q : Int) - 2 * R := by omega
      rw [e]
    · rw [List.getElem?_append_right (by rw [List.length_append, hlenA, hlenB]; omega),
        List.length_append, hlenA, hlenB,
        List.getElem?_map, List.getElem?_range (by omega : q - (R + (2 * R + 1)) < R)]
      show some [((q - (R + (2 * R + 1)) : Nat) : Int) + 1, 0] =
        some (get_periodic_von_neumann_neighbor_index 2 (R : Int) (q : Int))
      simp only [get_periodic_von_neumann_neighbor_index]
      norm_num
      rw [if_neg (by omega), if_pos (by omega)]
      have e : ((q - (R + (2 * R + 1)) : Nat) : Int) + 1 =
          (q : Int) - (4 * R + 1) + 1 + R := by omega
      rw [e]

/-- Element q of the VonNeumann 3D offset enumeration matches the
flat-to-offset function at rank 3. -/
theorem vn_offsets_3d_getElem (R q : Nat) (hq : q < 6 * R + 1) :
    (periodic_vn_offsets_3d (R : Int))[q]? =
      some (get_periodic_von_neumann_neighbor_index 3 (R : Int) (q : Int)) := by
  have hlenA : ((List.range R).map (fun t : Nat => [(t : Int) - R, 0, 0])).length = R := by
    rw [List.length_map, List.length_range]
  have hlenB1 : ((List.range R).map (fun t : Nat => [(0 : Int), (t : Int) - R, 0])).length = R := by
    rw [List.length_map, List.length_range]
  have hlenB2 : ((List.range (2 * R + 1)).map
      (fun t : Nat => [(0 : Int), 0, (t : Int) - R])).length = 2 * R + 1 := by
    rw [List.length_map, List.length_range]
  have hlenB3 : ((List.range R).map (fun t : Nat => [(0 : Int), (t : Int) + 1, 0])).length = R := by
    rw [List.length_map, List.length_range]
  have hmid : (6 * (R : Int) + 1).tdiv 2 = 3 * R := by
    have h1 : 6 * (R : Int) + 1 = ((6 * R + 1 : Nat) : Int) := by push_cast; ring
    have h2 : (2 : Int) = ((2 : Nat) : Int) := rfl
    rw [h1, h2, ← Int.ofNat_tdiv]
    have h3 : (6 * R + 1) / 2 = 3 * R := by omega
    rw [h3]
    push_cast
    ring
  rw [periodic_vn_offsets_3d_eq R]
  by_cases h1 : q < R
  · rw [List.getElem?_append_left
        (by rw [List.length_append, List.length_append, List.length_append,
          hlenA, hlenB1, hlenB2, hlenB3]; omega),
      List.getElem?_append_left (by rw [hlenA]; omega),
      List.getElem?_map, List.getElem?_range h1]
    show some [(q : Int) - R, 0, 0] =
      some (get_periodic_von_neumann_neighbor_index 3 (R : Int) (q : Int))
    simp only [get_periodic_von_neumann_neighbor_index]
    norm_num
    rw [if_pos (by exact_mod_cast h1)]
    have e : -(R : Int) + (q : Int) = (q : Int) - R := by ring
    rw [e]
  · by_cases h5 : 5 * R + 1 ≤ q
    · rw [List.getElem?_append_right
          (by rw [List.length_append, List.length_append, List.length_append,
            hlenA, hlenB1, hlenB2, hlenB3]; omega),
        List.length_append, List.length_append, List.length_append,
        hlenA, hlenB1, hlenB2, hlenB3,
        List.getElem?_map, List.getElem?_range
          (by omega : q - (R + (R + (2 * R + 1) + R)) < R)]
      show some [((q - (R + (R + (2 * R + 1) + R)) : Nat) : Int) + 1, 0, 0] =
        some (get_periodic_von_neumann_neighbor_index 3 (R : Int) (q : Int))
      simp only [get_periodic_von_neumann_neighbor_index]
      norm_num
      rw [if_neg (by omega), if_pos (by omega)]
      have e : ((q - (R + (R + (2 * R + 1) + R)) : Nat) : Int) + 1 =
          (q : Int) - (6 * R + 1) + 1 + R := by omega
      rw [e]
    · -- q lies in the middle block
      rw [List.getElem?_append_left
          (by rw [List.length_append, List.length_append, List.length_append,
            hlenA, hlenB1, hlenB2, hlenB3]; omega),
        List.getElem?_append_right (by rw [hlenA]; omega), hlenA]
      by_cases h2 : q < 2 * R
      · rw [List.getElem?_append_left
            (by rw [List.length_append, hlenB1, hlenB2]; omega),
          List.getElem?_append_left (by rw [hlenB1]; omega),
          List.getElem?_map, List.getElem?_range (by omega : q - R < R)]
        show some [(0 : Int), ((q - R : Nat) : Int) - R, 0] =
          some (get_periodic_von_neumann_neighbor_index 3 (R : Int) (q : Int))
        simp only [get_periodic_von_neumann_neighbor_index]
        norm_num
        rw [if_neg (by omega), if_neg (by omega), if_pos (by omega)]
        have e : ((q - R : Nat) : Int) - R = -(R : Int) + ((q : Int) - R) := by omega
        rw [e]
      · by_cases h4 : q < 4 * R + 1
        · rw [List.getElem?_append_left
              (by rw [List.length_append, hlenB1, hlenB2]; omega),
            List.getElem?_append_right (by rw [hlenB1]; omega), hlenB1,
            List.getElem?_map, List.getElem?_range (by omega : q - R - R < 2 * R + 1)]
          show some [(0 : Int), 0, ((q - R - R : Nat) : Int) - R] =
            some (get_periodic_von_neumann_neighbor_index 3 (R : Int) (q : Int))
          simp only [get_periodic_von_neumann_neighbor_index]
          norm_num
          rw [if_neg (by omega), if_neg (by omega), if_neg (by omega),
            if_neg (by omega), hmid]
          have e : ((q - R - R : Nat) : Int) - R = (q : Int) - 3 * R := by omega
          rw [e]
        · rw [List.getElem?_append_right
              (by rw [List.length_append, hlenB1, hlenB2]; omega),
            List.length_append, hlenB1, hlenB2,
            List.getElem?_map, List.getElem?_range
              (by omega : q - R - (R + (2 * R + 1)) < R)]
          show some [(0 : Int), ((q - R - (R + (2 * R + 1)) : Nat) : Int) + 1, 0] =
            some (get_periodic_von_neumann_neighbor_index 3 (R : Int) (q : Int))
          simp only [get_periodic_von_neumann_neighbor_index]
          norm_num
          rw [if_neg (by omega), if_neg (by omega), if_neg (by omega),
            if_pos (by omega)]
          have e : ((q - R - (R + (2 * R + 1)) : Nat) : Int) + 1 =
              (q : Int) - (6 * R + 1) + 1 + 2 * R := by omega
          rw [e]

/-- Cardinalities of the five offset enumerations. -/
theorem offsets_lengths (R : Nat) :
    (periodic_offsets_1d (R : Int)).length = 2 * R + 1 ∧
    (periodic_moore_offsets_2d (R : Int)).length = (2 * R + 1) * (2 * R + 1) ∧
    (periodic_moore_offsets_3d (R : Int)).length =
      (2 * R + 1) * ((2 * R + 1) * (2 * R + 1)) ∧
    (periodic_vn_offsets_2d (R : Int)).length = 4 * R + 1 ∧
    (periodic_vn_offsets_3d (R : Int)).length = 6 * R + 1 := by
  refine ⟨?_, ?_, ?_, ?_, ?_⟩
  · rw [periodic_offsets_1d, List.length_map, offsets_range_length]
  · rw [periodic_moore_offsets_2d, flatMap_length_const _ _ (2 * R + 1)
      (fun a _ => by rw [List.length_map, offsets_range_length]), offsets_range_length]
  · rw [periodic_moore_offsets_3d, flatMap_length_const _ _ ((2 * R + 1) * (2 * R + 1))
      (fun a _ => by rw [flatMap_length_const _ _ (2 * R + 1)
        (fun b _ => by rw [List.length_map, offsets_range_length]), offsets_range_length]),
      offsets_range_length]
  · rw [periodic_vn_offsets_2d_eq R]
    simp only [List.length_append, List.length_map, List.length_range]
    omega
  · rw [periodic_vn_offsets_3d_eq R]
    simp only [List.length_append, List.length_map, List.length_range]
    omega

/-- The 1D offset enumeration stays within [-radius, radius]. -/
theorem mem_offsets_bounds_1d (R : Nat) (o : List Int)
    (ho : o ∈ periodic_offsets_1d (R : Int)) : ∀ x ∈ o, -(R : Int) ≤ x ∧ x ≤ R := by
  rw [periodic_offsets_1d] at ho
  obtain ⟨di, hdi, rfl⟩ := List.mem_map.mp ho
  intro x hx
  obtain rfl := List.mem_singleton.mp hx
  exact mem_offsets_range R x hdi

/-- The Moore 2D offset enumeration stays within [-radius, radius]. -/
theorem mem_offsets_bounds_moore_2d (R : Nat) (o : List Int)
    (ho : o ∈ periodic_moore_offsets_2d (R : Int)) :
    ∀ x ∈ o, -(R : Int) ≤ x ∧ x ≤ R := by
  rw [periodic_moore_offsets_2d] at ho
  obtain ⟨di, hdi, ho2⟩ := List.mem_flatMap.mp ho
  obtain ⟨dj, hdj, rfl⟩ := List.mem_map.mp ho2
  intro x hx
  simp only [List.mem_cons, List.mem_singleton, List.not_mem_nil, or_false] at hx
  rcases hx with rfl | rfl
  · exact mem_offsets_range R x hdi
  · exact mem_offsets_range R x hdj

/-- The VonNeumann 2D offset enumeration stays within [-radius, radius]. -/
theorem mem_offsets_bounds_vn_2d (R : Nat) (o : List Int)
    (ho : o ∈ periodic_vn_offsets_2d (R : Int)) :
    ∀ x ∈ o, -(R : Int) ≤ x ∧ x ≤ R := by
  rw [periodic_vn_offsets_2d] at ho
  obtain ⟨di, hdi, ho2⟩ := List.mem_flatMap.mp ho
  obtain ⟨dj, hdj, heq⟩ := List.mem_filterMap.mp ho2
  by_cases hc : is_diagonal_neighboring_cell_2d di dj
  · rw [if_pos hc] at heq
    cases heq
  · rw [if_neg hc] at heq
    obtain rfl := Option.some_inj.mp heq
    intro x hx
    simp only [List.mem_cons, List.mem_singleton, List.not_mem_nil, or_false] at hx
    rcases hx with rfl | rfl
    · exact mem_offsets_range R x hdi
    · exact mem_offsets_range R x hdj

/-- The Moore 3D offset enumeration stays within [-radius, radius]. -/
theorem mem_offsets_bounds_moore_3d (R : Nat) (o : List Int)
    (ho : o ∈ periodic_moore_offsets_3d (R : Int)) :
    ∀ x ∈ o, -(R : Int) ≤ x ∧ x ≤ R := by
  rw [periodic_moore_offsets_3d] at ho
  obtain ⟨di, hdi, ho2⟩ := List.mem_flatMap.mp ho
  obtain ⟨dj, hdj, ho3⟩ := List.mem_flatMap.mp ho2
  obtain ⟨dk, hdk, rfl⟩ := List.mem_map.mp ho3
  intro x hx
  simp only [List.mem_cons, List.mem_singleton, List.not_mem_nil, or_false] at hx
  rcases hx with rfl | rfl | rfl
  · exact mem_offsets_range R x hdi
  · exact mem_offsets_range R x hdj
  · exact mem_offsets_range R x hdk

/-- The VonNeumann 3D offset enumeration stays within [-radius, radius]. -/
theorem mem_offsets_bounds_vn_3d (R : Nat) (o : List Int)
    (ho : o ∈ periodic_vn_offsets_3d (R : Int)) :
    ∀ x ∈ o, -(R : Int) ≤ x ∧ x ≤ R := by
  rw [periodic_vn_offsets_3d] at ho
  obtain ⟨di, hdi, ho2⟩ := List.mem_flatMap.mp ho
  obtain ⟨dj, hdj, ho3⟩ := List.mem_flatMap.mp ho2
  obtain ⟨dk, hdk, heq⟩ := List.mem_filterMap.mp ho3
  by_cases hc : is_diagonal_neighboring_cell_3d di dj dk
  · rw [if_pos hc] at heq
    cases heq
  · rw [if_neg hc] at heq
    obtain rfl := Option.some_inj.mp heq
    intro x hx
    simp only [List.mem_cons, List.mem_singleton, List.not_mem_nil, or_false] at hx
    rcases hx with rfl | rfl | rfl
    · exact mem_offsets_range R x hdi
    · exact mem_offsets_range R x hdj
    · exact mem_offsets_range R x hdk

/-- The 1D periodic generator reads exactly the cells addressed by the 1D
offset enumeration, in order. -/
theorem generate_periodic_1d_offsets (r axis1_dim : Int) (v : List Int) (i : Int) :
    generate_periodic_neighborhood_1d r axis1_dim v i =
      (periodic_offsets_1d r).map
        (fun o => cellGet v (get_periodic_index i (o.getD 0 0) axis1_dim)) := by
  rw [generate_periodic_neighborhood_1d, periodic_offsets_1d, List.map_map]
  rfl

/-- The 2D periodic generator reads exactly the cells addressed by the 2D
offset enumeration of the configured shape, in order. -/
theorem generate_periodic_2d_offsets (nt : CAEnums.Neighborhood) (r a1 a2 : Int)
    (mx : List (List Int)) (i j : Int) :
    generate_periodic_neighborhood_2d nt r a1 a2 mx i j =
      (if nt = CAEnums.Neighborhood.VonNeumann then periodic_vn_offsets_2d r
       else periodic_moore_offsets_2d r).map
        (fun o => matGet mx (get_periodic_index i (o.getD 0 0) a1)
          (get_periodic_index j (o.getD 1 0) a2)) := by
  cases nt with
  | VonNeumann =>
      rw [if_pos rfl, generate_periodic_neighborhood_2d, periodic_vn_offsets_2d,
        List.map_flatMap]
      congr 1
      funext di
      rw [List.map_filterMap]
      congr 1
      funext dj
      have hb : (CAEnums.Neighborhood.VonNeumann ==
          CAEnums.Neighborhood.VonNeumann) = true := rfl
      by_cases hc : is_diagonal_neighboring_cell_2d di dj
      · simp [hc, hb]
      · simp [hc, hb]
  | Moore =>
      rw [if_neg (by intro hc; cases hc), generate_periodic_neighborhood_2d,
        periodic_moore_offsets_2d, List.map_flatMap]
      congr 1
      funext di
      have hfn : (fun dj => if (CAEnums.Neighborhood.Moore ==
          CAEnums.Neighborhood.VonNeumann) && is_diagonal_neighboring_cell_2d di dj
          then none
          else some (matGet mx (get_periodic_index i di a1)
            (get_periodic_index j dj a2))) =
          some ∘ (fun dj => matGet mx (get_periodic_index i di a1)
            (get_periodic_index j dj a2)) := by
        funext dj
        have hb : (CAEnums.Neighborhood.Moore ==
            CAEnums.Neighborhood.VonNeumann) = false := rfl
        simp [hb]
      rw [hfn, List.filterMap_eq_map, List.map_map]
      rfl

/-- The 3D periodic generator reads exactly the cells addressed by the 3D
offset enumeration of the configured shape, in order. -/
theorem generate_periodic_3d_offsets (nt : CAEnums.Neighborhood) (r a1 a2 a3 : Int)
    (tz : List (List (List Int))) (i j k : Int) :
    generate_periodic_neighborhood_3d nt r a1 a2 a3 tz i j k =
      (if nt = CAEnums.Neighborhood.VonNeumann then periodic_vn_offsets_3d r
       else periodic_moore_offsets_3d r).map
        (fun o => tenGet tz (get_periodic_index i (o.getD 0 0) a1)
          (get_periodic_index j (o.getD 1 0) a2)
          (get_periodic_index k (o.getD 2 0) a3)) := by
  cases nt with
  | VonNeumann =>
      rw [if_pos rfl, generate_periodic_neighborhood_3d, periodic_vn_offsets_3d,
        List.map_flatMap]
      congr 1
      funext di
      rw [List.map_flatMap]
      congr 1
      funext dj
      rw [List.map_filterMap]
      congr 1
      funext dk
      have hb : (CAEnums.Neighborhood.VonNeumann ==
          CAEnums.Neighborhood.VonNeumann) = true := rfl
      by_cases hc : is_diagonal_neighboring_cell_3d di dj dk
      · simp [hc, hb]
      · simp [hc, hb]
  | Moore =>
      rw [if_neg (by intro hc; cases hc), generate_periodic_neighborhood_3d,
        periodic_moore_offsets_3d, List.map_flatMap]
      congr 1
      funext di
      rw [List.map_flatMap]
      congr 1
      funext dj
      have hfn : (fun dk => if (CAEnums.Neighborhood.Moore ==
          CAEnums.Neighborhood.VonNeumann) && is_diagonal_neighboring_cell_3d di dj dk
          then none
          else some (tenGet tz (get_periodic_index i di a1)
            (get_periodic_index j dj a2) (get_periodic_index k dk a3))) =
          some ∘ (fun dk => tenGet tz (get_periodic_index i di a1)
            (get_periodic_index j dj a2) (get_periodic_index k dk a3)) := by
        funext dk
        have hb : (CAEnums.Neighborhood.Moore ==
            CAEnums.Neighborhood.VonNeumann) = false := rfl
        simp [hb]
      rw [hfn, List.filterMap_eq_map, List.map_map]
      rfl

/-- C7: for every radius r ≥ 1, (i) the offset enumerations of the Periodic
neighborhood generators have exactly get_neighborhood_size cells ((2r+1)^k for
Moore, 2kr+1 for VonNeumann); (ii) for every position q the q-th enumerated
offset equals the offset computed by get_periodic_moore_neighbor_index or
get_periodic_von_neumann_neighbor_index at rank 1, 2 and 3; (iii) every
enumerated offset lies in [-r, r] on every axis; and (iv) the periodic
generators emit exactly the cells addressed by these offset enumerations in
this order. -/
theorem claim_C7 (r : Int) (hr : 1 ≤ r) (q : Nat) (nt : CAEnums.Neighborhood)
    (v : List Int) (mx : List (List Int)) (tz : List (List (List Int)))
    (i j k a1 a2 a3 : Int) :
    ((periodic_offsets_1d r).length : Int) =
      get_neighborhood_size 1 r CAEnums.Neighborhood.Moore ∧
    ((periodic_offsets_1d r).length : Int) =
      get_neighborhood_size 1 r CAEnums.Neighborhood.VonNeumann ∧
    ((periodic_moore_offsets_2d r).length : Int) =
      get_neighborhood_size 2 r CAEnums.Neighborhood.Moore ∧
    ((periodic_vn_offsets_2d r).length : Int) =
      get_neighborhood_size 2 r CAEnums.Neighborhood.VonNeumann ∧
    ((periodic_moore_offsets_3d r).length : Int) =
      get_neighborhood_size 3 r CAEnums.Neighborhood.Moore ∧
    ((periodic_vn_offsets_3d r).length : Int) =
      get_neighborhood_size 3 r CAEnums.Neighborhood.VonNeumann ∧
    (q < (periodic_offsets_1d r).length →
      (periodic_offsets_1d r)[q]? =
        some (get_periodic_moore_neighbor_index 1 r (q : Int)) ∧
      (periodic_offsets_1d r)[q]? =
        some (get_periodic_von_neumann_neighbor_index 1 r (q : Int))) ∧
    (q < (periodic_moore_offsets_2d r).length →
      (periodic_moore_offsets_2d r)[q]? =
        some (get_periodic_moore_neighbor_index 2 r (q : Int))) ∧
    (q < (periodic_vn_offsets_2d r).length →
      (periodic_vn_offsets_2d r)[q]? =
        some (get_periodic_von_neumann_neighbor_index 2 r (q : Int))) ∧
    (q < (periodic_moore_offsets_3d r).length →
      (periodic_moore_offsets_3d r)[q]? =
        some (get_periodic_moore_neighbor_index 3 r (q : Int))) ∧
    (q < (periodic_vn_offsets_3d r).length →
      (periodic_vn_offsets_3d r)[q]? =
        some (get_periodic_von_neumann_neighbor_index 3 r (q : Int))) ∧
    (∀ o ∈ periodic_offsets_1d r, ∀ x ∈ o, -r ≤ x ∧ x ≤ r) ∧
    (∀ o ∈ periodic_moore_offsets_2d r, ∀ x ∈ o, -r ≤ x ∧ x ≤ r) ∧
    (∀ o ∈ periodic_vn_offsets_2d r, ∀ x ∈ o, -r ≤ x ∧ x ≤ r) ∧
    (∀ o ∈ periodic_moore_offsets_3d r, ∀ x ∈ o, -r ≤ x ∧ x ≤ r) ∧
    (∀ o ∈ periodic_vn_offsets_3d r, ∀ x ∈ o, -r ≤ x ∧ x ≤ r) ∧
    generate_periodic_neighborhood_1d r a1 v i =
      (periodic_offsets_1d r).map
        (fun o => cellGet v (get_periodic_index i (o.getD 0 0) a1)) ∧
    generate_periodic_neighborhood_2d nt r a1 a2 mx i j =
      (if nt = CAEnums.Neighborhood.VonNeumann then periodic_vn_offsets_2d r
       else periodic_moore_offsets_2d r).map
        (fun o => matGet mx (get_periodic_index i (o.getD 0 0) a1)
          (get_periodic_index j (o.getD 1 0) a2)) ∧
    generate_periodic_neighborhood_3d nt r a1 a2 a3 tz i j k =
      (if nt = CAEnums.Neighborhood.VonNeumann then periodic_vn_offsets_3d r
       else periodic_moore_offsets_3d r).map
        (fun o => tenGet tz (get_periodic_index i (o.getD 0 0) a1)
          (get_periodic_index j (o.getD 1 0) a2)
          (get_periodic_index k (o.getD 2 0) a3)) := by
  obtain ⟨R, rfl⟩ : ∃ R : Nat, r = (R : Int) :=
    ⟨r.toNat, (Int.toNat_of_nonneg (by omega)).symm⟩
  obtain ⟨l1, l2m, l3m, l2v, l3v⟩ := offsets_lengths R
  refine ⟨?_, ?_, ?_, ?_, ?_, ?_, ?_, ?_, ?_, ?_, ?_, ?_, ?_, ?_, ?_, ?_, ?_, ?_, ?_⟩
  · rw [l1]
    simp only [get_neighborhood_size]
    norm_num
    try push_cast
    try ring
  · rw [l1]
    simp only [get_neighborhood_size]
    norm_num
    try push_cast
    try ring
  · rw [l2m]
    simp only [get_neighborhood_size]
    norm_num
    try push_cast
    try ring
  · rw [l2v]
    simp only [get_neighborhood_size]
    norm_num
    try push_cast
    try ring
  · rw [l3m]
    simp only [get_neighborhood_size]
    norm_num
    try push_cast
    try ring
  · rw [l3v]
    simp only [get_neighborhood_size]
    norm_num
    try push_cast
    try ring
  · intro hq
    rw [l1] at hq
    exact offsets_1d_getElem R q hq
  · intro hq
    rw [l2m] at hq
    exact moore_offsets_2d_getElem R q hq
  · intro hq
    rw [l2v] at hq
    exact vn_offsets_2d_getElem R q hq
  · intro hq
    rw [l3m] at hq
    exact moore_offsets_3d_getElem R q hq
  · intro hq
    rw [l3v] at hq
    exact vn_offsets_3d_getElem R q hq
  · exact fun o ho => mem_offsets_bounds_1d R o ho
  · exact fun o ho => mem_offsets_bounds_moore_2d R o ho
  · exact fun o ho => mem_offsets_bounds_vn_2d R o ho
  · exact fun o ho => mem_offsets_bounds_moore_3d R o ho
  · exact fun o ho => mem_offsets_bounds_vn_3d R o ho
  · exact generate_periodic_1d_offsets _ _ _ _
  · exact generate_periodic_2d_offsets _ _ _ _ _ _ _
  · exact generate_periodic_3d_offsets _ _ _ _ _ _ _ _ _

/-- C7 witness: radius 2, position 7 of the VonNeumann 2D enumeration, whose
offset is the first entry of the positive axis-1 arm. -/
theorem claim_C7_witness :
    (periodic_vn_offsets_2d 2)[7]? =
      some (get_periodic_von_neumann_neighbor_index 2 2 7) ∧
    (periodic_vn_offsets_2d 2)[7]? = some [1, 0] := by
  constructor
  · have h := claim_C7 2 (by decide) 7 CAEnums.Neighborhood.VonNeumann [] [] []
      0 0 0 0 0 0
    obtain ⟨_, _, _, _, _, _, _, _, h9, _⟩ := h
    exact h9 (by decide)
  · decide
